import Mathlib

/-!
Verification development for the covariant language pipeline
(lexer, IR lowering, evaluator) of the `covariant` repository.

Shallow embedding conventions:
* Rust `i64` is modelled as `Int` (the claims under study never exercise
  64-bit overflow); Rust's truncating `/` on `i64` is `Int.tdiv`.
* Rust `f64` is modelled by `FP`: an exact rational together with the
  IEEE special values `+inf`, `-inf` and `NaN`.  Finite arithmetic is
  exact (no rounding, single unsigned zero); the IEEE special-value
  propagation rules, which are what the claims exercise, are modelled
  faithfully (`x / 0.0` is an infinity or NaN, `NaN == NaN` is false).
  Numeric source literals such as `25.4` are read as exact rationals,
  and `std::f64::consts::PI` is the exact rational value of the `f64`
  constant.
* `HashMap<String, V>` scopes are association lists where `insert`
  prepends (first match wins on lookup, giving overwrite semantics);
  the scope stack is head-innermost.
* Unbounded Rust recursion is modelled with a fuel parameter; running
  out of fuel yields a distinguished `Custom` error that no theorem
  ever treats as a program outcome.
-/

namespace Covariant

/-- Half-open byte-offset range (src/crates/covariant-syntax/src/span.rs). -/
structure Span where
  start : Nat
  stop : Nat
deriving Repr, DecidableEq

/-- A value annotated with its source span (span.rs). -/
structure Spanned (α : Type) where
  node : α
  span : Span
deriving Repr, DecidableEq

/-- IEEE-double model: exact rational plus special values. -/
inductive FP where
  | finite (q : ℚ)
  | posInf
  | negInf
  | nan
deriving Repr, DecidableEq

namespace FP

/-- IEEE addition on the model. -/
def add : FP → FP → FP
  | nan, _ => nan
  | _, nan => nan
  | finite a, finite b => finite (a + b)
  | finite _, posInf => posInf
  | posInf, finite _ => posInf
  | posInf, posInf => posInf
  | finite _, negInf => negInf
  | negInf, finite _ => negInf
  | negInf, negInf => negInf
  | posInf, negInf => nan
  | negInf, posInf => nan

/-- IEEE subtraction on the model. -/
def sub : FP → FP → FP
  | nan, _ => nan
  | _, nan => nan
  | finite a, finite b => finite (a - b)
  | finite _, posInf => negInf
  | posInf, finite _ => posInf
  | posInf, posInf => nan
  | finite _, negInf => posInf
  | negInf, finite _ => negInf
  | negInf, negInf => nan
  | posInf, negInf => posInf
  | negInf, posInf => negInf

/-- IEEE multiplication on the model. -/
def mul : FP → FP → FP
  | nan, _ => nan
  | _, nan => nan
  | finite a, finite b => finite (a * b)
  | finite a, posInf => if a > 0 then posInf else if a < 0 then negInf else nan
  | posInf, finite b => if b > 0 then posInf else if b < 0 then negInf else nan
  | finite a, negInf => if a > 0 then negInf else if a < 0 then posInf else nan
  | negInf, finite b => if b > 0 then negInf else if b < 0 then posInf else nan
  | posInf, posInf => posInf
  | negInf, negInf => posInf
  | posInf, negInf => negInf
  | negInf, posInf => negInf

/-- IEEE division on the model (single unsigned zero: a finite nonzero
numerator over zero gives the infinity of the numerator's sign). -/
def div : FP → FP → FP
  | nan, _ => nan
  | _, nan => nan
  | finite a, finite b =>
      if b = 0 then (if a = 0 then nan else if a > 0 then posInf else negInf)
      else finite (a / b)
  | finite _, posInf => finite 0
  | finite _, negInf => finite 0
  | posInf, finite b => if b ≥ 0 then posInf else negInf
  | negInf, finite b => if b ≥ 0 then negInf else posInf
  | posInf, posInf => nan
  | posInf, negInf => nan
  | negInf, posInf => nan
  | negInf, negInf => nan

/-- IEEE negation. -/
def neg : FP → FP
  | finite a => finite (-a)
  | posInf => negInf
  | negInf => posInf
  | nan => nan

/-- IEEE `==`: NaN compares unequal to everything, itself included. -/
def beq : FP → FP → Bool
  | finite a, finite b => a == b
  | posInf, posInf => true
  | negInf, negInf => true
  | _, _ => false

/-- `x == 0.0` in Rust: true only for a (finite) zero, false for NaN/inf. -/
def isZero : FP → Bool
  | finite a => a == 0
  | _ => false

/-- `partial_cmp` mapped to -1/0/1 as the evaluator does; `none` iff NaN. -/
def pcmp : FP → FP → Option Int
  | nan, _ => none
  | _, nan => none
  | finite a, finite b => some (if a < b then -1 else if b < a then 1 else 0)
  | finite _, posInf => some (-1)
  | posInf, finite _ => some 1
  | negInf, finite _ => some (-1)
  | finite _, negInf => some 1
  | posInf, posInf => some 0
  | negInf, negInf => some 0
  | negInf, posInf => some (-1)
  | posInf, negInf => some 1

/-- `i64 as f64` (exact in the claims' range). -/
def ofInt (n : Int) : FP := finite n

end FP

/-- The exact rational value of the `f64` constant `std::f64::consts::PI`. -/
def pi64 : ℚ := 884279719003555 / 281474976710656

/-- Length units (src/crates/covariant-syntax/src/ast.rs `LengthUnit`). -/
inductive LengthUnit where
  | mm | cm | m | inch
deriving Repr, DecidableEq

/-- Angle units (ast.rs `AngleUnit`). -/
inductive AngleUnit where
  | deg | rad
deriving Repr, DecidableEq

/-- `length_to_mm` (src/crates/covariant-eval/src/units.rs). -/
def length_to_mm (value : FP) : LengthUnit → FP
  | .mm => value
  | .cm => FP.mul value (FP.finite 10)
  | .m => FP.mul value (FP.finite 1000)
  | .inch => FP.mul value (FP.finite (127 / 5))

/-- `angle_to_rad` (units.rs): degrees are `value * PI / 180.0`. -/
def angle_to_rad (value : FP) : AngleUnit → FP
  | .deg => FP.div (FP.mul value (FP.finite pi64)) (FP.finite 180)
  | .rad => value

/-- Binary operator kinds (ast.rs `BinOpKind`). -/
inductive BinOpKind where
  | add | sub | mul | div | eq | neq | lt | leq | gt | geq | and | or | pipe
deriving Repr, DecidableEq

/-- Unary operator kinds (ast.rs `UnaryOpKind`). -/
inductive UnaryOpKind where
  | neg | not
deriving Repr, DecidableEq

/-- Type annotations (ast.rs `Type`; renamed, `Type` is a Lean keyword). -/
inductive TypeAnn where
  | named (s : String)
  | list (t : Spanned TypeAnn)
  | fn (params : List (Spanned TypeAnn)) (ret : Spanned TypeAnn)

mutual

/-- AST expressions (ast.rs `Expr`); `if`/`match`/`let` variants carry an
`E`/`S` suffix because those words are Lean keywords. -/
inductive Expr where
  | intLit (v : Int)
  | floatLit (v : FP)
  | lengthLit (v : FP) (u : LengthUnit)
  | angleLit (v : FP) (u : AngleUnit)
  | boolLit (v : Bool)
  | stringLit (v : String)
  | ident (name : String)
  | binOp (lhs : Spanned Expr) (op : Spanned BinOpKind) (rhs : Spanned Expr)
  | unaryOp (op : Spanned UnaryOpKind) (operand : Spanned Expr)
  | fnCall (func : Spanned Expr) (args : List AstArg)
  | fieldAccess (object : Spanned Expr) (field : Spanned String)
  | lambda (params : List AstParam) (body : Spanned Expr)
  | list (elems : List (Spanned Expr))
  | ifE (cond : Spanned Expr) (thenBranch : Spanned Expr)
      (elseBranch : Option (Spanned Expr))
  | matchE (subject : Spanned Expr) (arms : List AstMatchArm)
  | dataConstructor (name : Spanned String) (fields : List AstFieldInit)
  | withUpdate (base : Spanned Expr) (updates : List AstFieldInit)
  | block (stmts : List (Spanned Stmt)) (tail : Option (Spanned Expr))
  | grouped (inner : Spanned Expr)

/-- AST statements (ast.rs `Stmt`, with the payload structs inlined). -/
inductive Stmt where
  | letS (name : Spanned String) (ty : Option (Spanned TypeAnn)) (value : Spanned Expr)
  | fnDef (name : Spanned String) (params : List AstParam)
      (returnTy : Option (Spanned TypeAnn)) (body : Spanned Expr)
  | dataDef (name : Spanned String) (fields : List AstField)
  | enumDef (name : Spanned String) (variants : List (Spanned String))
  | exprS (e : Spanned Expr)

/-- Match patterns (ast.rs `Pattern`). -/
inductive Pattern where
  | ident (name : String)
  | wildcard
  | literal (e : Spanned Expr)

/-- Call argument (ast.rs `Arg`). -/
inductive AstArg where
  | mk (name : Option (Spanned String)) (value : Spanned Expr) (span : Span)

/-- Function parameter (ast.rs `Param`). -/
inductive AstParam where
  | mk (name : Spanned String) (ty : Option (Spanned TypeAnn))
      (default : Option (Spanned Expr)) (span : Span)

/-- Field initializer (ast.rs `FieldInit`). -/
inductive AstFieldInit where
  | mk (name : Spanned String) (value : Spanned Expr) (span : Span)

/-- Match arm (ast.rs `MatchArm`). -/
inductive AstMatchArm where
  | mk (pattern : Spanned Pattern) (body : Spanned Expr) (span : Span)

/-- Data-definition field (ast.rs `Field`). -/
inductive AstField where
  | mk (name : Spanned String) (ty : Spanned TypeAnn)
      (default : Option (Spanned Expr)) (span : Span)

end

/-- A complete source file (ast.rs `SourceFile`). -/
structure SourceFile where
  stmts : List (Spanned Stmt)
  span : Span

/-- Dense arena index (covariant-ir/src/node.rs `NodeId`). -/
abbrev NodeId := Nat

/-- IR parameter (node.rs `IrParam`). -/
structure IrParam where
  name : Spanned String
  ty : Option (Spanned TypeAnn)
  default : Option NodeId
  span : Span

/-- IR call argument (node.rs `IrArg`). -/
structure IrArg where
  name : Option (Spanned String)
  value : NodeId
  span : Span
deriving Repr, DecidableEq

/-- IR field initializer (node.rs `IrFieldInit`). -/
structure IrFieldInit where
  name : Spanned String
  value : NodeId
  span : Span
deriving Repr, DecidableEq

/-- IR match arm (node.rs `IrMatchArm`). -/
structure IrMatchArm where
  pattern : Spanned Pattern
  body : NodeId
  span : Span

/-- IR data-definition field (node.rs `IrField`). -/
structure IrField where
  name : Spanned String
  ty : Spanned TypeAnn
  default : Option NodeId
  span : Span

/-- IR node variants (node.rs `IrNode`): mirrors the AST except that
`Grouped` is gone and children are arena indices. -/
inductive IrNode where
  | intLit (v : Int)
  | floatLit (v : FP)
  | lengthLit (v : FP) (u : LengthUnit)
  | angleLit (v : FP) (u : AngleUnit)
  | boolLit (v : Bool)
  | stringLit (v : String)
  | ident (name : String)
  | binOp (lhs : NodeId) (op : Spanned BinOpKind) (rhs : NodeId)
  | unaryOp (op : Spanned UnaryOpKind) (operand : NodeId)
  | fnCall (func : NodeId) (args : List IrArg)
  | fieldAccess (object : NodeId) (field : Spanned String)
  | lambda (params : List IrParam) (body : NodeId)
  | list (elems : List NodeId)
  | dataConstructor (name : Spanned String) (fields : List IrFieldInit)
  | withUpdate (base : NodeId) (updates : List IrFieldInit)
  | ifE (cond : NodeId) (thenBranch : NodeId) (elseBranch : Option NodeId)
  | matchE (subject : NodeId) (arms : List IrMatchArm)
  | block (stmts : List NodeId) (tail : Option NodeId)
  | letS (name : Spanned String) (ty : Option (Spanned TypeAnn)) (value : NodeId)
  | fnDef (name : Spanned String) (params : List IrParam)
      (returnTy : Option (Spanned TypeAnn)) (body : NodeId)
  | dataDef (name : Spanned String) (fields : List IrField)
  | enumDef (name : Spanned String) (variants : List (Spanned String))

/-- Node payload plus span (node.rs `IrNodeData`). -/
structure IrNodeData where
  node : IrNode
  span : Span

/-- Arena-allocated DAG (covariant-ir/src/dag.rs). -/
structure Dag where
  nodes : List IrNodeData
  roots : List NodeId

/-- `Dag::new`. -/
def Dag.new : Dag := ⟨[], []⟩

/-- `Dag::insert`: append to the arena and return the fresh index. -/
def Dag.insert (d : Dag) (n : IrNode) (sp : Span) : Dag × NodeId :=
  (⟨d.nodes ++ [⟨n, sp⟩], d.roots⟩, d.nodes.length)

/-- `Dag::node`. Rust indexing panics when out of bounds, which is
unreachable on arenas built by `lower`; the model totalizes with a
default payload. -/
def Dag.node (d : Dag) (id : NodeId) : IrNode :=
  (d.nodes.getD id ⟨.intLit 0, ⟨0, 0⟩⟩).node

/-- `Dag::span`. -/
def Dag.spanOf (d : Dag) (id : NodeId) : Span :=
  (d.nodes.getD id ⟨.intLit 0, ⟨0, 0⟩⟩).span

/-- IR-stage error (covariant-ir/src/error.rs; never produced for the
supported surface). -/
structure IrError where
  message : String
  span : Span

/-- Lowering context (covariant-ir/src/lower.rs `LowerCtx`). -/
structure LowerCtx where
  dag : Dag
  errors : List IrError

/-- Insert into the context's arena. -/
def LowerCtx.push (ctx : LowerCtx) (n : IrNode) (sp : Span) : LowerCtx × NodeId :=
  let r := ctx.dag.insert n sp
  ({ ctx with dag := r.1 }, r.2)

mutual

/-- `LowerCtx::lower_stmt` (lower.rs). -/
def lowerStmt (ctx : LowerCtx) (s : Stmt) (sp : Span) : LowerCtx × NodeId :=
  match s with
  | .letS name ty ⟨vn, vs⟩ =>
      let r := lowerExpr ctx vn vs
      r.1.push (.letS name ty r.2) sp
  | .fnDef name params returnTy ⟨bn, bs⟩ =>
      let r := lowerParams ctx params
      let rb := lowerExpr r.1 bn bs
      rb.1.push (.fnDef name r.2 returnTy rb.2) sp
  | .dataDef name fields =>
      let r := lowerFields ctx fields
      r.1.push (.dataDef name r.2) sp
  | .enumDef name variants => ctx.push (.enumDef name variants) sp
  | .exprS ⟨en, es⟩ => lowerExpr ctx en es
termination_by sizeOf s

/-- The statement loop of `lower` and of block lowering. -/
def lowerStmts (ctx : LowerCtx) (l : List (Spanned Stmt)) : LowerCtx × List NodeId :=
  match l with
  | [] => (ctx, [])
  | ⟨sn, ss⟩ :: rest =>
      let r := lowerStmt ctx sn ss
      let rr := lowerStmts r.1 rest
      (rr.1, r.2 :: rr.2)
termination_by sizeOf l

/-- `LowerCtx::lower_expr` (lower.rs). -/
def lowerExpr (ctx : LowerCtx) (e : Expr) (sp : Span) : LowerCtx × NodeId :=
  match e with
  | .intLit v => ctx.push (.intLit v) sp
  | .floatLit v => ctx.push (.floatLit v) sp
  | .lengthLit v u => ctx.push (.lengthLit v u) sp
  | .angleLit v u => ctx.push (.angleLit v u) sp
  | .boolLit v => ctx.push (.boolLit v) sp
  | .stringLit v => ctx.push (.stringLit v) sp
  | .ident name => ctx.push (.ident name) sp
  | .binOp lhs op rhs =>
      if op.node = .pipe then lowerPipe ctx lhs rhs sp
      else
        match lhs, rhs with
        | ⟨ln, ls⟩, ⟨rn, rs⟩ =>
          let rl := lowerExpr ctx ln ls
          let rr := lowerExpr rl.1 rn rs
          rr.1.push (.binOp rl.2 op rr.2) sp
  | .unaryOp op ⟨opn, ops⟩ =>
      let r := lowerExpr ctx opn ops
      r.1.push (.unaryOp op r.2) sp
  | .fnCall ⟨fn, fs⟩ args =>
      let rf := lowerExpr ctx fn fs
      let ra := lowerArgs rf.1 args
      ra.1.push (.fnCall rf.2 ra.2) sp
  | .fieldAccess ⟨obn, obs⟩ field =>
      let r := lowerExpr ctx obn obs
      r.1.push (.fieldAccess r.2 field) sp
  | .lambda params ⟨bn, bs⟩ =>
      let rp := lowerParams ctx params
      let rb := lowerExpr rp.1 bn bs
      rb.1.push (.lambda rp.2 rb.2) sp
  | .list elems =>
      let r := lowerExprList ctx elems
      r.1.push (.list r.2) sp
  | .dataConstructor name fields =>
      let r := lowerFieldInits ctx fields
      r.1.push (.dataConstructor name r.2) sp
  | .withUpdate ⟨bn, bs⟩ updates =>
      let rb := lowerExpr ctx bn bs
      let ru := lowerFieldInits rb.1 updates
      ru.1.push (.withUpdate rb.2 ru.2) sp
  | .ifE ⟨cn, cs⟩ ⟨tn, ts⟩ elseBranch =>
      let rc := lowerExpr ctx cn cs
      let rt := lowerExpr rc.1 tn ts
      let re := lowerOptExpr rt.1 elseBranch
      re.1.push (.ifE rc.2 rt.2 re.2) sp
  | .matchE ⟨sn, ss⟩ arms =>
      let rs := lowerExpr ctx sn ss
      let ra := lowerMatchArms rs.1 arms
      ra.1.push (.matchE rs.2 ra.2) sp
  | .block stmts tail =>
      let rs := lowerStmts ctx stmts
      let rt := lowerOptExpr rs.1 tail
      rt.1.push (.block rs.2 rt.2) sp
  | .grouped ⟨inner, is'⟩ => lowerExpr ctx inner is'
termination_by sizeOf e

/-- Lowering of an optional expression (the `Option::map` calls in lower.rs). -/
def lowerOptExpr (ctx : LowerCtx) (o : Option (Spanned Expr)) :
    LowerCtx × Option NodeId :=
  match o with
  | none => (ctx, none)
  | some ⟨en, es⟩ =>
      let r := lowerExpr ctx en es
      (r.1, some r.2)
termination_by sizeOf o

/-- `LowerCtx::lower_pipe` (lower.rs): desugar `lhs |> rhs` into `FnCall`. -/
def lowerPipe (ctx : LowerCtx) (lhs rhs : Spanned Expr) (sp : Span) :
    LowerCtx × NodeId :=
  match lhs, rhs with
  | ⟨ln, ls⟩, ⟨.fnCall ⟨fn, fs⟩ args, _⟩ =>
      let rl := lowerExpr ctx ln ls
      let rf := lowerExpr rl.1 fn fs
      let ra := lowerArgs rf.1 args
      ra.1.push (.fnCall rf.2 (⟨none, rl.2, ls⟩ :: ra.2)) sp
  | ⟨ln, ls⟩, ⟨rn, rs⟩ =>
      let rl := lowerExpr ctx ln ls
      let rf := lowerExpr rl.1 rn rs
      rf.1.push (.fnCall rf.2 [⟨none, rl.2, ls⟩]) sp
termination_by sizeOf lhs + sizeOf rhs

/-- The element loop of list-literal lowering. -/
def lowerExprList (ctx : LowerCtx) (l : List (Spanned Expr)) :
    LowerCtx × List NodeId :=
  match l with
  | [] => (ctx, [])
  | ⟨en, es⟩ :: rest =>
      let r := lowerExpr ctx en es
      let rr := lowerExprList r.1 rest
      (rr.1, r.2 :: rr.2)
termination_by sizeOf l

/-- `LowerCtx::lower_args` (lower.rs). -/
def lowerArgs (ctx : LowerCtx) (l : List AstArg) : LowerCtx × List IrArg :=
  match l with
  | [] => (ctx, [])
  | ⟨name, ⟨vn, vs⟩, asp⟩ :: rest =>
      let r := lowerExpr ctx vn vs
      let rr := lowerArgs r.1 rest
      (rr.1, ⟨name, r.2, asp⟩ :: rr.2)
termination_by sizeOf l

/-- `LowerCtx::lower_params` (lower.rs). -/
def lowerParams (ctx : LowerCtx) (l : List AstParam) : LowerCtx × List IrParam :=
  match l with
  | [] => (ctx, [])
  | ⟨name, ty, dflt, psp⟩ :: rest =>
      let r := lowerOptExpr ctx dflt
      let rr := lowerParams r.1 rest
      (rr.1, ⟨name, ty, r.2, psp⟩ :: rr.2)
termination_by sizeOf l

/-- `LowerCtx::lower_field_inits` (lower.rs). -/
def lowerFieldInits (ctx : LowerCtx) (l : List AstFieldInit) :
    LowerCtx × List IrFieldInit :=
  match l with
  | [] => (ctx, [])
  | ⟨name, ⟨vn, vs⟩, fsp⟩ :: rest =>
      let r := lowerExpr ctx vn vs
      let rr := lowerFieldInits r.1 rest
      (rr.1, ⟨name, r.2, fsp⟩ :: rr.2)
termination_by sizeOf l

/-- `LowerCtx::lower_match_arms` (lower.rs). -/
def lowerMatchArms (ctx : LowerCtx) (l : List AstMatchArm) :
    LowerCtx × List IrMatchArm :=
  match l with
  | [] => (ctx, [])
  | ⟨pat, ⟨bn, bs⟩, asp⟩ :: rest =>
      let r := lowerExpr ctx bn bs
      let rr := lowerMatchArms r.1 rest
      (rr.1, ⟨pat, r.2, asp⟩ :: rr.2)
termination_by sizeOf l

/-- `LowerCtx::lower_fields` (lower.rs). -/
def lowerFields (ctx : LowerCtx) (l : List AstField) : LowerCtx × List IrField :=
  match l with
  | [] => (ctx, [])
  | ⟨name, ty, dflt, fsp⟩ :: rest =>
      let r := lowerOptExpr ctx dflt
      let rr := lowerFields r.1 rest
      (rr.1, ⟨name, ty, r.2, fsp⟩ :: rr.2)
termination_by sizeOf l

end

/-- `lower` (lower.rs): lower a source file into an IR DAG with the
top-level statements as roots, in source order. -/
def lower (src : SourceFile) : Dag × List IrError :=
  let r := lowerStmts ⟨Dag.new, []⟩ src.stmts
  ({ r.1.dag with roots := r.2 }, r.1.errors)

/-! ### Lexer (src/crates/covariant-syntax/src/lexer.rs) -/

/-- Token kinds (covariant-syntax/src/token.rs `SyntaxKind`). -/
inductive SyntaxKind where
  | intLit | floatLit | lengthLit | angleLit | stringLit | litTrue | litFalse
  | identK
  | kwLet | kwData | kwFn | kwEnum | kwIf | kwElse | kwMatch | kwWith
  | plus | minus | star | slash | eqSym | eqEq | bangEq | ltSym | ltEq
  | gtSym | gtEq | ampAmp | pipePipe | bang | pipeGt | pipeSym | dot
  | arrow | colon | comma | fatArrow | semicolon
  | lparen | rparen | lbrace | rbrace | lbracket | rbracket
  | newline | eof | errTok
deriving Repr, DecidableEq

/-- `SyntaxKind::keyword` (token.rs). -/
def SyntaxKind.keyword : String → Option SyntaxKind
  | "let" => some .kwLet
  | "data" => some .kwData
  | "fn" => some .kwFn
  | "enum" => some .kwEnum
  | "if" => some .kwIf
  | "else" => some .kwElse
  | "match" => some .kwMatch
  | "with" => some .kwWith
  | "true" => some .litTrue
  | "false" => some .litFalse
  | _ => none

/-- A token (token.rs `Token`). -/
structure Token where
  kind : SyntaxKind
  span : Span
deriving Repr, DecidableEq

/-- Syntax error kinds (covariant-syntax/src/error.rs `ErrorKind`). -/
inductive ErrorKind where
  | unexpectedChar | unterminatedString | unterminatedBlockComment
  | invalidNumber | unknownUnit | expectedToken | expectedExpr
  | expectedStmt | unexpectedEof
deriving Repr, DecidableEq

/-- A syntax error (error.rs `SyntaxError`). -/
structure SynError where
  message : String
  span : Span
  kind : ErrorKind
deriving Repr, DecidableEq

/-- Mutable lexer state: byte position, emitted tokens, emitted errors. -/
structure LexSt where
  pos : Nat
  tokens : List Token
  errors : List SynError
deriving Repr, DecidableEq

/-- Length of the run of characters satisfying `p` starting at `pos`
(the `while self.peek().is_some_and(p) { self.advance() }` loops). -/
def countWhile (p : Char → Bool) (src : List Char) (pos : Nat) : Nat :=
  ((src.drop pos).takeWhile p).length

/-- `Lexer::emit`. -/
def emitTok (st : LexSt) (kind : SyntaxKind) (start : Nat) : LexSt :=
  { st with tokens := st.tokens ++ [⟨kind, ⟨start, st.pos⟩⟩] }

/-- `Lexer::error`: record one error and one `Error` token. -/
def lexError (st : LexSt) (message : String) (start : Nat) (kind : ErrorKind) :
    LexSt :=
  { st with
    errors := st.errors ++ [⟨message, ⟨start, st.pos⟩, kind⟩],
    tokens := st.tokens ++ [⟨.errTok, ⟨start, st.pos⟩⟩] }

/-- `Lexer::emit_number`. -/
def emitNumber (st : LexSt) (isFloat : Bool) (start : Nat) : LexSt :=
  if isFloat then emitTok st .floatLit start else emitTok st .intLit start

/-- `Lexer::scan_number` (lexer.rs lines 215-253): digits, optional
fraction, optional alphabetic suffix classified against the unit table;
an unrecognized suffix rewinds `pos` to the suffix start and emits a
plain number token. -/
def scanNumber (src : List Char) (st : LexSt) (start : Nat) : LexSt :=
  let p1 := st.pos + countWhile Char.isDigit src st.pos
  let isFloat : Bool :=
    (src[p1]? == some '.') &&
      (match src[p1 + 1]? with
       | some c => c.isDigit
       | none => false)
  let p2 := if isFloat then (p1 + 1) + countWhile Char.isDigit src (p1 + 1) else p1
  let suffixStart := p2
  match src[p2]? with
  | some c =>
      if c.isAlpha then
        let p3 := p2 + countWhile Char.isAlpha src p2
        let suffix := String.mk ((src.drop p2).take (p3 - p2))
        let st' := { st with pos := p3 }
        if suffix = "mm" ∨ suffix = "cm" ∨ suffix = "m" ∨ suffix = "in" then
          emitTok st' .lengthLit start
        else if suffix = "deg" ∨ suffix = "rad" then
          emitTok st' .angleLit start
        else
          emitNumber { st' with pos := suffixStart } isFloat start
      else emitNumber { st with pos := p2 } isFloat start
  | none => emitNumber { st with pos := p2 } isFloat start

/-- The character loop of `Lexer::scan_string`; fuel is at least the
number of remaining characters plus one at every call site. -/
def scanStringLoop (src : List Char) : Nat → LexSt → Nat → LexSt
  | 0, st, start => lexError st "unterminated string literal" start .unterminatedString
  | f + 1, st, start =>
    match src[st.pos]? with
    | none => lexError st "unterminated string literal" start .unterminatedString
    | some c =>
      if c = '"' then emitTok { st with pos := st.pos + 1 } .stringLit start
      else if c = '\\' then
        let st₁ := { st with pos := st.pos + 1 }
        let st₂ := if st₁.pos < src.length then { st₁ with pos := st₁.pos + 1 } else st₁
        scanStringLoop src f st₂ start
      else scanStringLoop src f { st with pos := st.pos + 1 } start

/-- `Lexer::skip_line_comment`: consume the second `/` then everything
up to (not including) the next newline. -/
def skipLineComment (src : List Char) (st : LexSt) : LexSt :=
  let p := st.pos + 1
  { st with pos := p + countWhile (fun c => c ≠ '\n') src p }

/-- The depth-tracking loop of `Lexer::skip_block_comment`. -/
def skipBlockLoop (src : List Char) : Nat → Nat → Nat → Nat × Nat
  | 0, pos, depth => (pos, depth)
  | f + 1, pos, depth =>
    if pos < src.length ∧ 0 < depth then
      if src[pos]? == some '/' && src[pos + 1]? == some '*' then
        skipBlockLoop src f (pos + 2) (depth + 1)
      else if src[pos]? == some '*' && src[pos + 1]? == some '/' then
        skipBlockLoop src f (pos + 2) (depth - 1)
      else skipBlockLoop src f (pos + 1) depth
    else (pos, depth)

/-- `Lexer::skip_block_comment`. -/
def skipBlockComment (src : List Char) (st : LexSt) (start : Nat) : LexSt :=
  let r := skipBlockLoop src (src.length + 1) (st.pos + 1) 1
  let st₂ := { st with pos := r.1 }
  if 0 < r.2 then
    lexError st₂ "unterminated block comment" start .unterminatedBlockComment
  else st₂

/-- `Lexer::scan_ident_or_keyword`. -/
def scanIdentOrKeyword (src : List Char) (st : LexSt) (start : Nat) : LexSt :=
  let p := st.pos + countWhile (fun c => c.isAlphanum || c = '_') src st.pos
  let text := String.mk ((src.drop start).take (p - start))
  emitTok { st with pos := p } ((SyntaxKind.keyword text).getD .identK) start

/-- `Lexer::scan_token` (lexer.rs lines 61-163). -/
def scanToken (src : List Char) (st0 : LexSt) : LexSt :=
  let st :=
    { st0 with
      pos := st0.pos + countWhile (fun c => c = ' ' || c = '\t' || c = '\r') src st0.pos }
  match src[st.pos]? with
  | none => st
  | some c =>
    let start := st.pos
    let st := { st with pos := st.pos + 1 }
    match c with
    | '(' => emitTok st .lparen start
    | ')' => emitTok st .rparen start
    | '{' => emitTok st .lbrace start
    | '}' => emitTok st .rbrace start
    | '[' => emitTok st .lbracket start
    | ']' => emitTok st .rbracket start
    | '+' => emitTok st .plus start
    | '*' => emitTok st .star start
    | '.' => emitTok st .dot start
    | ':' => emitTok st .colon start
    | ',' => emitTok st .comma start
    | ';' => emitTok st .semicolon start
    | '\n' => emitTok st .newline start
    | '-' =>
      if src[st.pos]? == some '>' then emitTok { st with pos := st.pos + 1 } .arrow start
      else emitTok st .minus start
    | '=' =>
      if src[st.pos]? == some '=' then emitTok { st with pos := st.pos + 1 } .eqEq start
      else if src[st.pos]? == some '>' then emitTok { st with pos := st.pos + 1 } .fatArrow start
      else emitTok st .eqSym start
    | '!' =>
      if src[st.pos]? == some '=' then emitTok { st with pos := st.pos + 1 } .bangEq start
      else emitTok st .bang start
    | '<' =>
      if src[st.pos]? == some '=' then emitTok { st with pos := st.pos + 1 } .ltEq start
      else emitTok st .ltSym start
    | '>' =>
      if src[st.pos]? == some '=' then emitTok { st with pos := st.pos + 1 } .gtEq start
      else emitTok st .gtSym start
    | '&' =>
      if src[st.pos]? == some '&' then emitTok { st with pos := st.pos + 1 } .ampAmp start
      else lexError st "expected \x27&&\x27" start .unexpectedChar
    | '|' =>
      if src[st.pos]? == some '>' then emitTok { st with pos := st.pos + 1 } .pipeGt start
      else if src[st.pos]? == some '|' then emitTok { st with pos := st.pos + 1 } .pipePipe start
      else emitTok st .pipeSym start
    | '/' =>
      if src[st.pos]? == some '/' then skipLineComment src st
      else if src[st.pos]? == some '*' then skipBlockComment src st start
      else emitTok st .slash start
    | '"' => scanStringLoop src (src.length + 1) st start
    | other =>
      if other.isDigit then scanNumber src st start
      else if other.isAlpha || other = '_' then scanIdentOrKeyword src st start
      else
        let cs := String.mk [other]
        lexError st s!"unexpected character \x27{cs}\x27" start .unexpectedChar

/-- The `while !self.at_end()` loop of `Lexer::run`; each `scan_token`
strictly advances `pos`, so fuel `src.length + 1` never runs out. -/
def lexLoop (src : List Char) : Nat → LexSt → LexSt
  | 0, st => st
  | f + 1, st => if st.pos < src.length then lexLoop src f (scanToken src st) else st

/-- `lex` (lexer.rs): scan the whole source, then append one `Eof` token. -/
def lex (source : String) : List Token × List SynError :=
  let src := source.data
  let st := lexLoop src (src.length + 1) ⟨0, [], []⟩
  (st.tokens ++ [⟨.eof, ⟨st.pos, st.pos⟩⟩], st.errors)

/-! ### Runtime values, environment, errors
(src/crates/covariant-eval/src/{value,env,error}.rs) -/

/-- Closure parameter (value.rs `FnParam`). -/
structure FnParam where
  name : String
  default : Option NodeId
deriving Repr, DecidableEq

/-- Runtime values (value.rs `Value`).  `Solid`/`Mesh` are opaque
backend handles, modelled as bare tags; `BuiltinFn` keeps only its
name — the native function pointer lives behind the geometry-backend
boundary (spec section 6) and is outside the modelled core. -/
inductive Value where
  | int (n : Int)
  | float (x : FP)
  | length (x : FP)
  | angle (x : FP)
  | bool (b : Bool)
  | str (s : String)
  | vec3 (x y z : FP)
  | solid (h : Nat)
  | mesh (h : Nat)
  | list (xs : List Value)
  | function (params : List FnParam) (body : NodeId)
      (closureEnv : List (List (String × Value)))
  | builtinFn (name : String)
  | data (typeName : String) (fields : List (String × Value))
  | enumVariant (typeName : String) (variant : String)
  | unit

/-- Scope stack, head-innermost (env.rs `Env`). -/
abbrev Env := List (List (String × Value))

/-- `Value::type_name` (value.rs). -/
def Value.typeName : Value → String
  | .int _ => "Int"
  | .float _ => "Float"
  | .length _ => "Length"
  | .angle _ => "Angle"
  | .bool _ => "Bool"
  | .str _ => "String"
  | .vec3 _ _ _ => "Vec3"
  | .solid _ => "Solid"
  | .mesh _ => "Mesh"
  | .list _ => "List"
  | .function _ _ _ => "Function"
  | .builtinFn _ => "BuiltinFn"
  | .data tn _ => tn
  | .enumVariant tn _ => tn
  | .unit => "Unit"

/-- `Env::new`: one empty scope. -/
def envNew : Env := [[]]

/-- `Env::push_scope`. -/
def envPush (env : Env) : Env := [] :: env

/-- `Env::pop_scope`: drop the innermost scope.  Rust asserts more
than one scope remains; the evaluator only pops scopes it has pushed,
so the stack always has at least two scopes at every pop site and the
empty fallback is unreachable there. -/
def envPop : Env → Env
  | _ :: rest => rest
  | [] => []

/-- `Env::define`: insert into the innermost scope (prepending gives
`HashMap::insert` overwrite semantics under first-match lookup).  The
empty-stack arm is unreachable (Rust `expect`s a scope; the model makes
it a no-op). -/
def envDefine (env : Env) (name : String) (v : Value) : Env :=
  match env with
  | scope :: rest => ((name, v) :: scope) :: rest
  | [] => []

/-- `Env::lookup`: innermost scope first. -/
def envLookup (env : Env) (name : String) : Option Value :=
  match env with
  | [] => none
  | scope :: rest =>
    match scope.lookup name with
    | some v => some v
    | none => envLookup rest name

/-- Evaluation error kinds (error.rs `EvalErrorKind`). -/
inductive EvalErrorKind where
  | typeError | undefinedName | arityMismatch | fieldNotFound
  | divisionByZero | geomError | notCallable | patternMismatch | custom
deriving Repr, DecidableEq

/-- An evaluation error (error.rs `EvalError`). -/
structure EvalError where
  message : String
  span : Option Span
  kind : EvalErrorKind
deriving Repr, DecidableEq

/-- `EvalError::new` (argument order as in error.rs). -/
def EvalError.new (kind : EvalErrorKind) (message : String) (span : Option Span) :
    EvalError :=
  ⟨message, span, kind⟩

/-- `EvalResult` (error.rs). -/
abbrev EvalResult (α : Type) := Except EvalError α

/-- Mutable evaluator state: the environment plus the registered
data-type table of `EvalCtx` (eval.rs). -/
structure St where
  env : Env
  dataTypes : List (String × List String)

/-- The error returned when the model's fuel runs out (an artifact of
modelling unbounded Rust recursion; never a program outcome in any
result below). -/
def fuelErr : EvalError := EvalError.new .custom "fuel exhausted (model artifact)" none

/-! ### Pure evaluator helpers (eval.rs) -/

/-- `EvalCtx::values_equal` (eval.rs lines 640-662): structural,
per-variant, no cross-type promotion; floats use IEEE equality. -/
def valuesEqual : Value → Value → Bool
  | .int x, .int y => x == y
  | .float x, .float y => FP.beq x y
  | .length x, .length y => FP.beq x y
  | .angle x, .angle y => FP.beq x y
  | .bool x, .bool y => x == y
  | .str x, .str y => x == y
  | .vec3 a b c, .vec3 d e g => FP.beq a d && FP.beq b e && FP.beq c g
  | .unit, .unit => true
  | .enumVariant t1 v1, .enumVariant t2 v2 => t1 == t2 && v1 == v2
  | _, _ => false

/-- `EvalCtx::compare_values` (eval.rs lines 665-695). -/
def compareValues (a b : Value) (span : Span) : EvalResult Int :=
  match a, b with
  | .int x, .int y => .ok (if x < y then -1 else if y < x then 1 else 0)
  | .float x, .float y => .ok ((FP.pcmp x y).getD 0)
  | .length x, .length y => .ok ((FP.pcmp x y).getD 0)
  | .angle x, .angle y => .ok ((FP.pcmp x y).getD 0)
  | .int x, .float y => .ok ((FP.pcmp (FP.ofInt x) y).getD 0)
  | .float x, .int y => .ok ((FP.pcmp x (FP.ofInt y)).getD 0)
  | _, _ =>
    let an := a.typeName
    let bn := b.typeName
    .error (EvalError.new .typeError s!"cannot compare {an} and {bn}" (some span))

/-- `EvalCtx::type_error_binop` (eval.rs). -/
def typeErrorBinop (op : String) (lhs rhs : Value) (span : Span) : EvalError :=
  let ln := lhs.typeName
  let rn := rhs.typeName
  EvalError.new .typeError s!"cannot apply \x27{op}\x27 to {ln} and {rn}" (some span)

/-- The zero-divisor pre-check of `eval_binop`'s `Div` arm (eval.rs
lines 351-375).  Note the `Int(0)` divisor arms cover only `Int` and
`Float` numerators. -/
def divZeroCheck (lhs rhs : Value) (span : Span) : Option EvalError :=
  match lhs, rhs with
  | .int _, .int 0 =>
      some (EvalError.new .divisionByZero "division by zero" (some span))
  | .float _, .int 0 =>
      some (EvalError.new .divisionByZero "division by zero" (some span))
  | _, .float b =>
      if FP.isZero b then
        some (EvalError.new .divisionByZero "division by zero" (some span))
      else none
  | _, .length b =>
      if FP.isZero b then
        some (EvalError.new .divisionByZero "division by zero" (some span))
      else none
  | _, _ => none

/-- `EvalCtx::eval_binop` (eval.rs lines 309-413). -/
def evalBinop (lhs : Value) (op : BinOpKind) (rhs : Value) (span : Span) :
    EvalResult Value :=
  match op with
  | .add =>
    match lhs, rhs with
    | .int a, .int b => .ok (.int (a + b))
    | .float a, .float b => .ok (.float (FP.add a b))
    | .length a, .length b => .ok (.length (FP.add a b))
    | .angle a, .angle b => .ok (.angle (FP.add a b))
    | .int a, .float b => .ok (.float (FP.add (FP.ofInt a) b))
    | .float a, .int b => .ok (.float (FP.add a (FP.ofInt b)))
    | .str a, .str b => .ok (.str (a ++ b))
    | _, _ => .error (typeErrorBinop "+" lhs rhs span)
  | .sub =>
    match lhs, rhs with
    | .int a, .int b => .ok (.int (a - b))
    | .float a, .float b => .ok (.float (FP.sub a b))
    | .length a, .length b => .ok (.length (FP.sub a b))
    | .angle a, .angle b => .ok (.angle (FP.sub a b))
    | .int a, .float b => .ok (.float (FP.sub (FP.ofInt a) b))
    | .float a, .int b => .ok (.float (FP.sub a (FP.ofInt b)))
    | _, _ => .error (typeErrorBinop "-" lhs rhs span)
  | .mul =>
    match lhs, rhs with
    | .int a, .int b => .ok (.int (a * b))
    | .float a, .float b => .ok (.float (FP.mul a b))
    | .length a, .float b => .ok (.length (FP.mul a b))
    | .float a, .length b => .ok (.length (FP.mul a b))
    | .length a, .int b => .ok (.length (FP.mul a (FP.ofInt b)))
    | .int a, .length b => .ok (.length (FP.mul (FP.ofInt a) b))
    | .int a, .float b => .ok (.float (FP.mul (FP.ofInt a) b))
    | .float a, .int b => .ok (.float (FP.mul a (FP.ofInt b)))
    | _, _ => .error (typeErrorBinop "*" lhs rhs span)
  | .div =>
    match divZeroCheck lhs rhs span with
    | some e => .error e
    | none =>
      match lhs, rhs with
      | .int a, .int b => .ok (.int (Int.tdiv a b))
      | .float a, .float b => .ok (.float (FP.div a b))
      | .length a, .float b => .ok (.length (FP.div a b))
      | .length a, .int b => .ok (.length (FP.div a (FP.ofInt b)))
      | .length a, .length b => .ok (.float (FP.div a b))
      | .int a, .float b => .ok (.float (FP.div (FP.ofInt a) b))
      | .float a, .int b => .ok (.float (FP.div a (FP.ofInt b)))
      | _, _ => .error (typeErrorBinop "/" lhs rhs span)
  | .eq => .ok (.bool (valuesEqual lhs rhs))
  | .neq => .ok (.bool (!valuesEqual lhs rhs))
  | .lt => (compareValues lhs rhs span).map (fun c => .bool (decide (c < 0)))
  | .leq => (compareValues lhs rhs span).map (fun c => .bool (decide (c ≤ 0)))
  | .gt => (compareValues lhs rhs span).map (fun c => .bool (decide (0 < c)))
  | .geq => (compareValues lhs rhs span).map (fun c => .bool (decide (0 ≤ c)))
  | .and =>
    match lhs, rhs with
    | .bool a, .bool b => .ok (.bool (a && b))
    | _, _ => .error (typeErrorBinop "&&" lhs rhs span)
  | .or =>
    match lhs, rhs with
    | .bool a, .bool b => .ok (.bool (a || b))
    | _, _ => .error (typeErrorBinop "||" lhs rhs span)
  | .pipe =>
    .error (EvalError.new .custom "pipe operator should have been desugared" (some span))

/-- `EvalCtx::eval_unaryop` (eval.rs lines 416-443). -/
def evalUnaryop (op : UnaryOpKind) (val : Value) (span : Span) : EvalResult Value :=
  match op with
  | .neg =>
    match val with
    | .int n => .ok (.int (-n))
    | .float x => .ok (.float (FP.neg x))
    | .length x => .ok (.length (FP.neg x))
    | .angle x => .ok (.angle (FP.neg x))
    | other =>
      let nm := other.typeName
      .error (EvalError.new .typeError s!"cannot negate {nm}" (some span))
  | .not =>
    match val with
    | .bool b => .ok (.bool (!b))
    | other =>
      let nm := other.typeName
      .error (EvalError.new .typeError s!"cannot apply ! to {nm}" (some span))

/-- `EvalCtx::eval_pattern_literal` (eval.rs lines 623-637). -/
def evalPatternLiteral : Expr → Option Value
  | .intLit n => some (.int n)
  | .floatLit x => some (.float x)
  | .boolLit b => some (.bool b)
  | .stringLit s => some (.str s)
  | .lengthLit v u => some (.length (length_to_mm v u))
  | .angleLit v u => some (.angle (angle_to_rad v u))
  | _ => none

/-- `EvalCtx::match_pattern` (eval.rs lines 593-620): an identifier
pattern is a constant comparison when the name is bound to an enum
variant, otherwise a fresh capture. -/
def matchPattern (env : Env) (pat : Pattern) (value : Value) :
    Option (List (String × Value)) :=
  match pat with
  | .wildcard => some []
  | .ident name =>
    match envLookup env name with
    | some (.enumVariant tn vr) =>
        if valuesEqual (.enumVariant tn vr) value then some [] else none
    | _ => some [(name, value)]
  | .literal lit =>
    match evalPatternLiteral lit.node with
    | some litVal => if valuesEqual litVal value then some [] else none
    | none => none

/-- Replace the first field with the given name (the
`iter_mut().find(...)` update in with-update evaluation). -/
def setField : List (String × Value) → String → Value → List (String × Value)
  | [], _, _ => []
  | p :: rest, n, v =>
    if p.1 == n then (p.1, v) :: rest else p :: setField rest n v

/-- Bind parameters to resolved argument values in the call scope
(the `params.iter().zip(args.iter())` loop of `eval_call`). -/
def defineParams (env : Env) (params : List FnParam) (args : List Value) : Env :=
  (params.zip args).foldl (fun e pa => envDefine e pa.1.name pa.2) env

/-- Register one enum variant constant per variant name (the `EnumDef`
arm of `eval_node`). -/
def defineEnumVariants (env : Env) (typeName : String) (variants : List (Spanned String)) : Env :=
  variants.foldl (fun e v => envDefine e v.node (.enumVariant typeName v.node)) env

/-- `HashMap::insert` on the data-type table (written, never read back
by the evaluator). -/
def dtInsert (m : List (String × List String)) (k : String) (v : List String) :
    List (String × List String) :=
  (k, v) :: m

/-! ### The fueled recursive evaluator (eval.rs `EvalCtx`)

Every function consumes one unit of fuel per call; with enough fuel the
model computes exactly what the Rust recursion computes.  Errors abort
the whole evaluation (fail-fast), so no state is carried on the error
path. -/

mutual

/-- `EvalCtx::eval_node` (eval.rs lines 51-306). -/
def evalNode (dag : Dag) : Nat → St → NodeId → EvalResult (Value × St)
  | 0, _, _ => .error fuelErr
  | f + 1, st, id =>
    let span := dag.spanOf id
    match dag.node id with
    | .intLit n => .ok (.int n, st)
    | .floatLit x => .ok (.float x, st)
    | .lengthLit v u => .ok (.length (length_to_mm v u), st)
    | .angleLit v u => .ok (.angle (angle_to_rad v u), st)
    | .boolLit b => .ok (.bool b, st)
    | .stringLit s => .ok (.str s, st)
    | .ident name =>
      match envLookup st.env name with
      | some v => .ok (v, st)
      | none =>
        .error (EvalError.new .undefinedName s!"undefined name \x27{name}\x27" (some span))
    | .binOp lhs op rhs =>
      match evalNode dag f st lhs with
      | .error e => .error e
      | .ok (l, st1) =>
        match evalNode dag f st1 rhs with
        | .error e => .error e
        | .ok (r, st2) =>
          match evalBinop l op.node r span with
          | .error e => .error e
          | .ok v => .ok (v, st2)
    | .unaryOp op operand =>
      match evalNode dag f st operand with
      | .error e => .error e
      | .ok (v, st1) =>
        match evalUnaryop op.node v span with
        | .error e => .error e
        | .ok r => .ok (r, st1)
    | .fnCall func args =>
      match evalNode dag f st func with
      | .error e => .error e
      | .ok (fv, st1) => evalCall dag f st1 fv args span
    | .fieldAccess object field =>
      match evalNode dag f st object with
      | .error e => .error e
      | .ok (obj, st1) =>
        match obj with
        | .data _ fields =>
          match fields.find? (fun p => p.1 == field.node) with
          | some p => .ok (p.2, st1)
          | none =>
            let fn := field.node
            .error (EvalError.new .fieldNotFound s!"field \x27{fn}\x27 not found"
              (some field.span))
        | other =>
          let nm := other.typeName
          .error (EvalError.new .typeError s!"field access on non-data type {nm}" (some span))
    | .lambda params body =>
      .ok (.function (params.map (fun p => ⟨p.name.node, p.default⟩)) body st.env, st)
    | .list elems =>
      match evalNodeList dag f st elems with
      | .error e => .error e
      | .ok (items, st1) => .ok (.list items, st1)
    | .dataConstructor name fields =>
      match evalFieldInitList dag f st fields with
      | .error e => .error e
      | .ok (fvs, st1) => .ok (.data name.node fvs, st1)
    | .withUpdate base updates =>
      match evalNode dag f st base with
      | .error e => .error e
      | .ok (bv, st1) =>
        match bv with
        | .data tn fields =>
          match applyUpdates dag f st1 tn fields updates with
          | .error e => .error e
          | .ok (fields2, st2) => .ok (.data tn fields2, st2)
        | other =>
          let nm := other.typeName
          .error (EvalError.new .typeError s!"with-update on non-data type {nm}" (some span))
    | .ifE cond thenBranch elseBranch =>
      match evalNode dag f st cond with
      | .error e => .error e
      | .ok (cv, st1) =>
        match cv with
        | .bool true => evalNode dag f st1 thenBranch
        | .bool false =>
          match elseBranch with
          | some eb => evalNode dag f st1 eb
          | none => .ok (.unit, st1)
        | other =>
          let nm := other.typeName
          .error (EvalError.new .typeError s!"if condition must be Bool, got {nm}" (some span))
    | .matchE subject arms =>
      match evalNode dag f st subject with
      | .error e => .error e
      | .ok (subj, st1) => evalArms dag f st1 subj arms span
    | .block stmts tail =>
      match evalSeq dag f { st with env := envPush st.env } stmts with
      | .error e => .error e
      | .ok st1 =>
        match tail with
        | some t =>
          match evalNode dag f st1 t with
          | .error e => .error e
          | .ok (v, st2) => .ok (v, { st2 with env := envPop st2.env })
        | none => .ok (.unit, { st1 with env := envPop st1.env })
    | .letS name _ value =>
      match evalNode dag f st value with
      | .error e => .error e
      | .ok (v, st1) => .ok (.unit, { st1 with env := envDefine st1.env name.node v })
    | .fnDef name params _ body =>
      let fnParams : List FnParam := params.map (fun p => ⟨p.name.node, p.default⟩)
      .ok (.unit,
        { st with env := envDefine st.env name.node (.function fnParams body st.env) })
    | .dataDef name fields =>
      .ok (.unit,
        { st with
          dataTypes := dtInsert st.dataTypes name.node (fields.map (fun fl => fl.name.node)) })
    | .enumDef name variants =>
      .ok (.unit, { st with env := defineEnumVariants st.env name.node variants })

/-- The element loop of list-literal evaluation. -/
def evalNodeList (dag : Dag) : Nat → St → List NodeId → EvalResult (List Value × St)
  | 0, _, _ => .error fuelErr
  | _ + 1, st, [] => .ok ([], st)
  | f + 1, st, n :: rest =>
    match evalNode dag f st n with
    | .error e => .error e
    | .ok (v, st1) =>
      match evalNodeList dag f st1 rest with
      | .error e => .error e
      | .ok (vs, st2) => .ok (v :: vs, st2)

/-- The statement loop of block evaluation (values discarded). -/
def evalSeq (dag : Dag) : Nat → St → List NodeId → EvalResult St
  | 0, _, _ => .error fuelErr
  | _ + 1, st, [] => .ok st
  | f + 1, st, n :: rest =>
    match evalNode dag f st n with
    | .error e => .error e
    | .ok (_, st1) => evalSeq dag f st1 rest

/-- The field loop of data-constructor evaluation. -/
def evalFieldInitList (dag : Dag) :
    Nat → St → List IrFieldInit → EvalResult (List (String × Value) × St)
  | 0, _, _ => .error fuelErr
  | _ + 1, st, [] => .ok ([], st)
  | f + 1, st, fi :: rest =>
    match evalNode dag f st fi.value with
    | .error e => .error e
    | .ok (v, st1) =>
      match evalFieldInitList dag f st1 rest with
      | .error e => .error e
      | .ok (fvs, st2) => .ok ((fi.name.node, v) :: fvs, st2)

/-- The update loop of with-update evaluation (eval.rs lines 170-184):
evaluate the new value, then overwrite the matching field or fail. -/
def applyUpdates (dag : Dag) :
    Nat → St → String → List (String × Value) → List IrFieldInit →
    EvalResult (List (String × Value) × St)
  | 0, _, _, _, _ => .error fuelErr
  | _ + 1, st, _, fields, [] => .ok (fields, st)
  | f + 1, st, tn, fields, upd :: rest =>
    match evalNode dag f st upd.value with
    | .error e => .error e
    | .ok (v, st1) =>
      if fields.any (fun p => p.1 == upd.name.node) then
        applyUpdates dag f st1 tn (setField fields upd.name.node v) rest
      else
        let un := upd.name.node
        .error (EvalError.new .fieldNotFound s!"field \x27{un}\x27 not found in {tn}"
          (some upd.span))

/-- The arm loop of match evaluation (eval.rs lines 223-241). -/
def evalArms (dag : Dag) :
    Nat → St → Value → List IrMatchArm → Span → EvalResult (Value × St)
  | 0, _, _, _, _ => .error fuelErr
  | _ + 1, _, _, [], span =>
    .error (EvalError.new .patternMismatch "no pattern matched" (some span))
  | f + 1, st, subj, arm :: rest, span =>
    match matchPattern st.env arm.pattern.node subj with
    | some bindings =>
      let env1 := bindings.foldl (fun e b => envDefine e b.1 b.2) (envPush st.env)
      match evalNode dag f { st with env := env1 } arm.body with
      | .error e => .error e
      | .ok (v, st2) => .ok (v, { st2 with env := envPop st2.env })
    | none => evalArms dag f st subj rest span

/-- `EvalCtx::eval_call` (eval.rs lines 446-485). -/
def evalCall (dag : Dag) :
    Nat → St → Value → List IrArg → Span → EvalResult (Value × St)
  | 0, _, _, _, _ => .error fuelErr
  | f + 1, st, funcVal, irArgs, span =>
    match funcVal with
    | .builtinFn name =>
      match evalArgsPositional dag f st irArgs with
      | .error e => .error e
      | .ok _ =>
        -- The native builtin bodies (builtins.rs) delegate to the
        -- geometry backend, outside the modelled core; no claim under
        -- study evaluates a builtin call.
        .error (EvalError.new .custom (name ++ ": builtin body not modelled") (some span))
    | .function params body closureEnv =>
      match resolveArgs dag f st params irArgs span with
      | .error e => .error e
      | .ok (args, st1) =>
        match evalNode dag f ⟨defineParams (envPush closureEnv) params args, st1.dataTypes⟩ body with
        | .error e => .error e
        | .ok (v, stB) => .ok (v, ⟨st1.env, stB.dataTypes⟩)
    | other =>
      let nm := other.typeName
      .error (EvalError.new .notCallable s!"cannot call value of type {nm}" (some span))

/-- `EvalCtx::eval_args_positional` (eval.rs lines 522-526). -/
def evalArgsPositional (dag : Dag) :
    Nat → St → List IrArg → EvalResult (List Value × St)
  | 0, _, _ => .error fuelErr
  | _ + 1, st, [] => .ok ([], st)
  | f + 1, st, a :: rest =>
    match evalNode dag f st a.value with
    | .error e => .error e
    | .ok (v, st1) =>
      match evalArgsPositional dag f st1 rest with
      | .error e => .error e
      | .ok (vs, st2) => .ok (v :: vs, st2)

/-- Pass 1 of `EvalCtx::resolve_args` (eval.rs lines 537-571): named
arguments go to the matching slot, positional arguments fill slots
left-to-right, with `ArityMismatch` on unknown names or overflow. -/
def resolvePass1 (dag : Dag) :
    Nat → St → List FnParam → List (Option Value) → Nat → List IrArg → Span →
    EvalResult (List (Option Value) × St)
  | 0, _, _, _, _, _, _ => .error fuelErr
  | _ + 1, st, _, slots, _, [], _ => .ok (slots, st)
  | f + 1, st, params, slots, posIdx, arg :: rest, span =>
    match arg.name with
    | some nameSp =>
      match params.findIdx? (fun p => p.name == nameSp.node) with
      | none =>
        let nm := nameSp.node
        .error (EvalError.new .arityMismatch s!"unknown parameter \x27{nm}\x27"
          (some nameSp.span))
      | some i =>
        match evalNode dag f st arg.value with
        | .error e => .error e
        | .ok (v, st1) =>
          resolvePass1 dag f st1 params (slots.set i (some v)) posIdx rest span
    | none =>
      if params.length ≤ posIdx then
        let n := params.length
        let g := posIdx + 1
        .error (EvalError.new .arityMismatch
          s!"too many arguments: expected {n}, got at least {g}" (some span))
      else
        match evalNode dag f st arg.value with
        | .error e => .error e
        | .ok (v, st1) =>
          resolvePass1 dag f st1 params (slots.set posIdx (some v)) (posIdx + 1) rest span

/-- Pass 2 of `EvalCtx::resolve_args` (eval.rs lines 574-587): fill
still-empty slots from parameter defaults, else `ArityMismatch`. -/
def resolvePass2 (dag : Dag) :
    Nat → St → List (FnParam × Option Value) → Span → EvalResult (List Value × St)
  | 0, _, _, _ => .error fuelErr
  | _ + 1, st, [], _ => .ok ([], st)
  | f + 1, st, (param, slot) :: rest, span =>
    match slot with
    | some v =>
      match resolvePass2 dag f st rest span with
      | .error e => .error e
      | .ok (vs, st1) => .ok (v :: vs, st1)
    | none =>
      match param.default with
      | some d =>
        match evalNode dag f st d with
        | .error e => .error e
        | .ok (v, st1) =>
          match resolvePass2 dag f st1 rest span with
          | .error e => .error e
          | .ok (vs, st2) => .ok (v :: vs, st2)
      | none =>
        let pn := param.name
        .error (EvalError.new .arityMismatch s!"missing argument \x27{pn}\x27" (some span))

/-- `EvalCtx::resolve_args` (eval.rs lines 529-590). -/
def resolveArgs (dag : Dag) :
    Nat → St → List FnParam → List IrArg → Span → EvalResult (List Value × St)
  | 0, _, _, _, _ => .error fuelErr
  | f + 1, st, params, irArgs, span =>
    match resolvePass1 dag f st params (List.replicate params.length none) 0 irArgs span with
    | .error e => .error e
    | .ok (slots, st1) => resolvePass2 dag f st1 (params.zip slots) span

end

/-- The builtin functions registered by `register_builtins`
(builtins.rs), as name-tagged `BuiltinFn` values.  The thread-size
constant table registered alongside them is elided (no claim touches
it). -/
def builtinNames : List String :=
  ["box", "cylinder", "sphere", "vec3", "union", "difference", "intersect",
   "union_many", "move", "rotate", "scale", "threaded_hole", "trace",
   "export_stl", "map"]

/-- `register_builtins` (builtins.rs): builtin functions plus the
enum-like constants. -/
def registerBuiltins (env : Env) : Env :=
  let env1 := builtinNames.foldl (fun e n => envDefine e n (.builtinFn n)) env
  let env2 := envDefine env1 "ISO_METRIC" (.enumVariant "ThreadStandard" "IsoMetric")
  let env3 := envDefine env2 "UTS" (.enumVariant "ThreadStandard" "Uts")
  let env4 := envDefine env3 "TAP" (.enumVariant "ThreadKind" "Internal")
  let env5 := envDefine env4 "CLEARANCE" (.enumVariant "ThreadKind" "ClearanceMedium")
  envDefine env5 "INSERT" (.enumVariant "ThreadKind" "Insert")

/-- The state `eval` starts from: a fresh global environment with the
builtins registered, and an empty data-type table. -/
def initialSt : St := ⟨registerBuiltins envNew, []⟩

/-- The root loop of `eval` (eval.rs lines 31-35): evaluate each root
in order, keeping the last value (`Unit` initially). -/
def evalRoots (dag : Dag) (f : Nat) : St → List NodeId → Value → EvalResult (Value × St)
  | st, [], last => .ok (last, st)
  | st, r :: rest, _ =>
    match evalNode dag f st r with
    | .error e => .error e
    | .ok (v, st1) => evalRoots dag f st1 rest v

/-- `eval` (eval.rs lines 25-37): fresh env, register builtins, run the
roots in order, return the last root's value. -/
def eval (dag : Dag) (f : Nat) : EvalResult Value :=
  match evalRoots dag f initialSt dag.roots .unit with
  | .error e => .error e
  | .ok (v, _) => .ok v

/-! ### Spec-side comparison definitions -/

/-- Value kind tags, for stating which type combinations an operator
supports. -/
inductive VKind where
  | int | float | length | angle | bool | str | vec3 | solid | mesh
  | list | function | builtinFn | data | enumVariant | unit
deriving Repr, DecidableEq

/-- The kind tag of a value. -/
def Value.kind : Value → VKind
  | .int _ => .int
  | .float _ => .float
  | .length _ => .length
  | .angle _ => .angle
  | .bool _ => .bool
  | .str _ => .str
  | .vec3 _ _ _ => .vec3
  | .solid _ => .solid
  | .mesh _ => .mesh
  | .list _ => .list
  | .function _ _ _ => .function
  | .builtinFn _ => .builtinFn
  | .data _ _ => .data
  | .enumVariant _ _ => .enumVariant
  | .unit => .unit

/-- The amended support table for binary arithmetic, written from the
(corrected) spec wording: `+` and `-` accept the four same-type numeric
pairs and Int/Float promotion, `+` also String concatenation; `*`
accepts Int/Float pairs with promotion plus Length-by-scalar scaling on
either side; `/` accepts Int/Float pairs with promotion, Length divided
by a scalar, and Length/Length (dimensionless ratio).  `Length * Length`,
`Angle * Angle` and `Angle / Angle` are NOT supported (this is where the
original claim fails). -/
def arithSupported : BinOpKind → VKind → VKind → Bool
  | .add, .int, .int => true
  | .add, .float, .float => true
  | .add, .length, .length => true
  | .add, .angle, .angle => true
  | .add, .int, .float => true
  | .add, .float, .int => true
  | .add, .str, .str => true
  | .sub, .int, .int => true
  | .sub, .float, .float => true
  | .sub, .length, .length => true
  | .sub, .angle, .angle => true
  | .sub, .int, .float => true
  | .sub, .float, .int => true
  | .mul, .int, .int => true
  | .mul, .float, .float => true
  | .mul, .length, .float => true
  | .mul, .float, .length => true
  | .mul, .length, .int => true
  | .mul, .int, .length => true
  | .mul, .int, .float => true
  | .mul, .float, .int => true
  | .div, .int, .int => true
  | .div, .float, .float => true
  | .div, .length, .float => true
  | .div, .length, .int => true
  | .div, .length, .length => true
  | .div, .int, .float => true
  | .div, .float, .int => true
  | _, _, _ => false

/-- Is the right operand a zero that the division pre-check intercepts
for every numerator (`Float(0.0)` or `Length(0.0)`)? -/
def divZeroRhs : Value → Bool
  | .float b => FP.isZero b
  | .length b => FP.isZero b
  | _ => false

/-- The length factor table exactly as the spec states it:
`factor(mm)=1, factor(cm)=10, factor(m)=1000, factor(in)=25.4`. -/
def lengthFactorSpec : LengthUnit → FP
  | .mm => .finite 1
  | .cm => .finite 10
  | .m => .finite 1000
  | .inch => .finite (127 / 5)

/-- All arena indices an IR node refers to: operands, call arguments,
bodies, parameter and field defaults, block statements, branches. -/
def irChildren : IrNode → List NodeId
  | .intLit _ => []
  | .floatLit _ => []
  | .lengthLit _ _ => []
  | .angleLit _ _ => []
  | .boolLit _ => []
  | .stringLit _ => []
  | .ident _ => []
  | .binOp lhs _ rhs => [lhs, rhs]
  | .unaryOp _ operand => [operand]
  | .fnCall func args => func :: args.map (fun a => a.value)
  | .fieldAccess object _ => [object]
  | .lambda params body => params.filterMap (fun p => p.default) ++ [body]
  | .list elems => elems
  | .dataConstructor _ fields => fields.map (fun fi => fi.value)
  | .withUpdate base updates => base :: updates.map (fun fi => fi.value)
  | .ifE c t e => [c, t] ++ e.toList
  | .matchE subj arms => subj :: arms.map (fun a => a.body)
  | .block stmts tail => stmts ++ tail.toList
  | .letS _ _ v => [v]
  | .fnDef _ params _ body => params.filterMap (fun p => p.default) ++ [body]
  | .dataDef _ fields => fields.filterMap (fun fl => fl.default)
  | .enumDef _ _ => []

/-- Is this node a pipe binary-operator node? -/
def isPipeNode : IrNode → Bool
  | .binOp _ op _ => op.node == .pipe
  | _ => false

/-- Is this AST expression a call?  (Distinguishes the two pipe
desugarings.) -/
def Expr.isFnCallB : Expr → Bool
  | .fnCall _ _ => true
  | _ => false

/-- Arena well-formedness: every child of the node stored at index `i`
has index strictly less than `i`. -/
def WfArena (dag : Dag) : Prop :=
  ∀ i d, dag.nodes[i]? = some d → ∀ c ∈ irChildren d.node, c < i

/-- No node in the arena is a pipe binary-operator node. -/
def NoPipe (dag : Dag) : Prop :=
  ∀ d ∈ dag.nodes, isPipeNode d.node = false

/-- Arena length of a lowering context. -/
def dlen (ctx : LowerCtx) : Nat := ctx.dag.nodes.length

/-- `b`'s arena extends `a`'s, and lowering-state invariants carry over. -/
def LowerInv (a b : LowerCtx) : Prop :=
  (∃ t, b.dag.nodes = a.dag.nodes ++ t) ∧
  (WfArena a.dag → WfArena b.dag) ∧ (NoPipe a.dag → NoPipe b.dag)

/-- The left-associated AST of `a |> f |> g` (all spans zero). -/
def chainExpr : Expr :=
  .binOp ⟨.binOp ⟨.ident "a", ⟨0, 0⟩⟩ ⟨.pipe, ⟨0, 0⟩⟩ ⟨.ident "f", ⟨0, 0⟩⟩, ⟨0, 0⟩⟩
    ⟨.pipe, ⟨0, 0⟩⟩ ⟨.ident "g", ⟨0, 0⟩⟩

/-- A one-statement source file whose expression is `a |> f`. -/
def srcPipe : SourceFile :=
  ⟨[⟨.exprS ⟨.binOp ⟨.ident "a", ⟨0, 0⟩⟩ ⟨.pipe, ⟨0, 0⟩⟩ ⟨.ident "f", ⟨0, 0⟩⟩,
      ⟨0, 0⟩⟩, ⟨0, 0⟩⟩], ⟨0, 0⟩⟩

/-- `b` has the same scope-stack depth as `a` and the same scopes below
the innermost: evaluation may touch only the innermost scope. -/
def EnvFrame (a b : Env) : Prop := b.length = a.length ∧ b.tail = a.tail

/-- The frame property for every evaluator function at one fuel level:
successful evaluation preserves the scope-stack depth and all scopes
below the innermost one. -/
def FrameAt (dag : Dag) (f : Nat) : Prop :=
  (∀ st id v st', evalNode dag f st id = .ok (v, st') → EnvFrame st.env st'.env) ∧
  (∀ st l vs st', evalNodeList dag f st l = .ok (vs, st') → EnvFrame st.env st'.env) ∧
  (∀ st l st', evalSeq dag f st l = .ok st' → EnvFrame st.env st'.env) ∧
  (∀ st l fvs st', evalFieldInitList dag f st l = .ok (fvs, st') →
    EnvFrame st.env st'.env) ∧
  (∀ st tn fields l r st', applyUpdates dag f st tn fields l = .ok (r, st') →
    EnvFrame st.env st'.env) ∧
  (∀ st subj arms sp v st', evalArms dag f st subj arms sp = .ok (v, st') →
    EnvFrame st.env st'.env) ∧
  (∀ st fv args sp v st', evalCall dag f st fv args sp = .ok (v, st') →
    EnvFrame st.env st'.env) ∧
  (∀ st l vs st', evalArgsPositional dag f st l = .ok (vs, st') →
    EnvFrame st.env st'.env) ∧
  (∀ st params slots pi l sp r st',
    resolvePass1 dag f st params slots pi l sp = .ok (r, st') →
    EnvFrame st.env st'.env) ∧
  (∀ st pl sp r st', resolvePass2 dag f st pl sp = .ok (r, st') →
    EnvFrame st.env st'.env) ∧
  (∀ st params l sp r st', resolveArgs dag f st params l sp = .ok (r, st') →
    EnvFrame st.env st'.env)

/-- The lowered form of `let x = 1` then `{ let x = 2 }` then `x`. -/
def dagC6 : Dag :=
  ⟨[⟨.intLit 1, ⟨0, 0⟩⟩,
    ⟨.letS ⟨"x", ⟨0, 0⟩⟩ none 0, ⟨0, 0⟩⟩,
    ⟨.intLit 2, ⟨0, 0⟩⟩,
    ⟨.letS ⟨"x", ⟨0, 0⟩⟩ none 2, ⟨0, 0⟩⟩,
    ⟨.block [3] none, ⟨0, 0⟩⟩,
    ⟨.ident "x", ⟨0, 0⟩⟩],
   [1, 4, 5]⟩

/-- A single block `{ let x = 2 }` as a root. -/
def dagB : Dag :=
  ⟨[⟨.intLit 2, ⟨0, 0⟩⟩,
    ⟨.letS ⟨"x", ⟨0, 0⟩⟩ none 0, ⟨0, 0⟩⟩,
    ⟨.block [1] none, ⟨0, 0⟩⟩],
   [2]⟩

/-- Roots whose first entry is an undefined identifier. -/
def dagE : Dag :=
  ⟨[⟨.ident "nosuch", ⟨0, 0⟩⟩, ⟨.intLit 3, ⟨0, 0⟩⟩], [0, 1]⟩

/-- The lowered form of `fn f(x) { x }` then `f(1, 2)`. -/
def dagC3A : Dag :=
  ⟨[⟨.ident "x", ⟨0, 0⟩⟩,
    ⟨.fnDef ⟨"f", ⟨0, 0⟩⟩ [⟨⟨"x", ⟨0, 0⟩⟩, none, none, ⟨0, 0⟩⟩] none 0, ⟨0, 0⟩⟩,
    ⟨.ident "f", ⟨0, 0⟩⟩,
    ⟨.intLit 1, ⟨0, 0⟩⟩,
    ⟨.intLit 2, ⟨0, 0⟩⟩,
    ⟨.fnCall 2 [⟨none, 3, ⟨0, 0⟩⟩, ⟨none, 4, ⟨0, 0⟩⟩], ⟨0, 0⟩⟩],
   [1, 5]⟩

/-- The lowered form of `fn g(x, y = 5) { x + y }` then `g(1)`. -/
def dagC3B : Dag :=
  ⟨[⟨.intLit 5, ⟨0, 0⟩⟩,
    ⟨.ident "x", ⟨0, 0⟩⟩,
    ⟨.ident "y", ⟨0, 0⟩⟩,
    ⟨.binOp 1 ⟨.add, ⟨0, 0⟩⟩ 2, ⟨0, 0⟩⟩,
    ⟨.fnDef ⟨"g", ⟨0, 0⟩⟩
      [⟨⟨"x", ⟨0, 0⟩⟩, none, none, ⟨0, 0⟩⟩, ⟨⟨"y", ⟨0, 0⟩⟩, none, some 0, ⟨0, 0⟩⟩]
      none 3, ⟨0, 0⟩⟩,
    ⟨.ident "g", ⟨0, 0⟩⟩,
    ⟨.intLit 1, ⟨0, 0⟩⟩,
    ⟨.fnCall 5 [⟨none, 6, ⟨0, 0⟩⟩], ⟨0, 0⟩⟩],
   [4, 7]⟩

theorem FP.mul_fin_one (x : FP) : FP.mul x (FP.finite 1) = x := by
  cases x <;> simp [FP.mul]

/-! ### Claims -/

/-- C1: the claim says a zero divisor of ANY numeric right-hand type is
caught before dividing, `Length` divided by `Int` zero included, and a
division never returns an infinity.  The zero pre-check in
`eval_binop`'s `Div` arm only covers `Int`/`Float` numerators for an
`Int(0)` divisor, so `Length(1.0) / Int(0)` slips through and performs
`1.0 / 0.0 = +inf`, returning `Ok(Length(+inf))`; `Angle / Int(0)` is a
`TypeError`, not `DivisionByZero`.  This contradicts the claim and the
code's own comment ("Check division by zero for all numeric types."). -/
theorem c1_length_div_int_zero_bug :
    evalBinop (.length (.finite 1)) .div (.int 0) ⟨0, 0⟩ = .ok (.length .posInf) ∧
    eval ⟨[⟨.lengthLit (.finite 1) .mm, ⟨0, 0⟩⟩, ⟨.intLit 0, ⟨0, 0⟩⟩,
           ⟨.binOp 0 ⟨.div, ⟨0, 0⟩⟩ 1, ⟨0, 0⟩⟩], [2]⟩ 3 =
      .ok (.length .posInf) ∧
    evalBinop (.angle (.finite 1)) .div (.int 0) ⟨0, 0⟩ =
      .error (EvalError.new .typeError
        "cannot apply \x27/\x27 to Angle and Int" (some ⟨0, 0⟩)) :=
  ⟨rfl, rfl, rfl⟩

/-- C2 counterexample: the claim says `/` succeeds on two `Angle`
operands; the code's `Div` arm has no `Angle` case, so `Angle(1.0) /
Angle(1.0)` is a `TypeError`. -/
theorem c2_counterexample :
    evalBinop (.angle (.finite 1)) .div (.angle (.finite 1)) ⟨0, 0⟩ =
      .error (EvalError.new .typeError
        "cannot apply \x27/\x27 to Angle and Angle" (some ⟨0, 0⟩)) := rfl

set_option maxHeartbeats 2000000 in
theorem c2aux_add :
    (∀ (a b : Int) (sp : Span),
      evalBinop (.int a) .add (.int b) sp = .ok (.int (a + b))) ∧
    (∀ (x y : FP) (sp : Span),
      evalBinop (.float x) .add (.float y) sp = .ok (.float (FP.add x y))) ∧
    (∀ (x y : FP) (sp : Span),
      evalBinop (.length x) .add (.length y) sp = .ok (.length (FP.add x y))) ∧
    (∀ (x y : FP) (sp : Span),
      evalBinop (.angle x) .add (.angle y) sp = .ok (.angle (FP.add x y))) ∧
    (∀ (a : Int) (y : FP) (sp : Span),
      evalBinop (.int a) .add (.float y) sp = .ok (.float (FP.add (FP.ofInt a) y))) ∧
    (∀ (x : FP) (b : Int) (sp : Span),
      evalBinop (.float x) .add (.int b) sp = .ok (.float (FP.add x (FP.ofInt b)))) ∧
    (∀ (a b : String) (sp : Span),
      evalBinop (.str a) .add (.str b) sp = .ok (.str (a ++ b))) ∧
    (∀ (l r : Value) (sp : Span), arithSupported .add l.kind r.kind = false →
      evalBinop l .add r sp = .error (typeErrorBinop "+" l r sp)) := by
  refine ⟨fun a b s1 => rfl, fun x y s2 => rfl, fun u v s3 => rfl,
    fun p q s4 => rfl, fun c w s5 => rfl, fun z d s6 => rfl,
    fun g k s7 => rfl, ?_⟩
  intro l r sp h
  cases l <;> cases r <;> simp_all [arithSupported, Value.kind, evalBinop]

set_option maxHeartbeats 2000000 in
theorem c2aux_sub :
    (∀ (a b : Int) (sp : Span),
      evalBinop (.int a) .sub (.int b) sp = .ok (.int (a - b))) ∧
    (∀ (x y : FP) (sp : Span),
      evalBinop (.float x) .sub (.float y) sp = .ok (.float (FP.sub x y))) ∧
    (∀ (x y : FP) (sp : Span),
      evalBinop (.length x) .sub (.length y) sp = .ok (.length (FP.sub x y))) ∧
    (∀ (x y : FP) (sp : Span),
      evalBinop (.angle x) .sub (.angle y) sp = .ok (.angle (FP.sub x y))) ∧
    (∀ (a : Int) (y : FP) (sp : Span),
      evalBinop (.int a) .sub (.float y) sp = .ok (.float (FP.sub (FP.ofInt a) y))) ∧
    (∀ (x : FP) (b : Int) (sp : Span),
      evalBinop (.float x) .sub (.int b) sp = .ok (.float (FP.sub x (FP.ofInt b)))) ∧
    (∀ (l r : Value) (sp : Span), arithSupported .sub l.kind r.kind = false →
      evalBinop l .sub r sp = .error (typeErrorBinop "-" l r sp)) := by
  refine ⟨fun a1 b1 t1 => rfl, fun x1 y1 t2 => rfl, fun u1 v1 t3 => rfl,
    fun p1 q1 t4 => rfl, fun c1 w1 t5 => rfl, fun z1 d1 t6 => rfl, ?_⟩
  intro l r sp h
  cases l <;> cases r <;> simp_all [arithSupported, Value.kind, evalBinop]

set_option maxHeartbeats 2000000 in
theorem c2aux_mul :
    (∀ (a b : Int) (sp : Span),
      evalBinop (.int a) .mul (.int b) sp = .ok (.int (a * b))) ∧
    (∀ (x y : FP) (sp : Span),
      evalBinop (.float x) .mul (.float y) sp = .ok (.float (FP.mul x y))) ∧
    (∀ (x y : FP) (sp : Span),
      evalBinop (.length x) .mul (.float y) sp = .ok (.length (FP.mul x y))) ∧
    (∀ (x y : FP) (sp : Span),
      evalBinop (.float x) .mul (.length y) sp = .ok (.length (FP.mul x y))) ∧
    (∀ (x : FP) (b : Int) (sp : Span),
      evalBinop (.length x) .mul (.int b) sp = .ok (.length (FP.mul x (FP.ofInt b)))) ∧
    (∀ (a : Int) (y : FP) (sp : Span),
      evalBinop (.int a) .mul (.length y) sp = .ok (.length (FP.mul (FP.ofInt a) y))) ∧
    (∀ (a : Int) (y : FP) (sp : Span),
      evalBinop (.int a) .mul (.float y) sp = .ok (.float (FP.mul (FP.ofInt a) y))) ∧
    (∀ (x : FP) (b : Int) (sp : Span),
      evalBinop (.float x) .mul (.int b) sp = .ok (.float (FP.mul x (FP.ofInt b)))) ∧
    (∀ (l r : Value) (sp : Span), arithSupported .mul l.kind r.kind = false →
      evalBinop l .mul r sp = .error (typeErrorBinop "*" l r sp)) := by
  refine ⟨fun a2 b2 r1 => rfl, fun x2 y2 r2 => rfl, fun u2 v2 r3 => rfl,
    fun p2 q2 r4 => rfl, fun c2 w2 r5 => rfl, fun z2 d2 r6 => rfl,
    fun g2 k2 r7 => rfl, fun m2 n2 r8 => rfl, ?_⟩
  intro l r sp h
  cases l <;> cases r <;> simp_all [arithSupported, Value.kind, evalBinop]

set_option maxHeartbeats 2000000 in
theorem c2aux_div :
    (∀ (a b : Int) (sp : Span), b ≠ 0 →
      evalBinop (.int a) .div (.int b) sp = .ok (.int (Int.tdiv a b))) ∧
    (∀ (x y : FP) (sp : Span), FP.isZero y = false →
      evalBinop (.float x) .div (.float y) sp = .ok (.float (FP.div x y))) ∧
    (∀ (x y : FP) (sp : Span), FP.isZero y = false →
      evalBinop (.length x) .div (.float y) sp = .ok (.length (FP.div x y))) ∧
    (∀ (x : FP) (b : Int) (sp : Span), b ≠ 0 →
      evalBinop (.length x) .div (.int b) sp = .ok (.length (FP.div x (FP.ofInt b)))) ∧
    (∀ (x y : FP) (sp : Span), FP.isZero y = false →
      evalBinop (.length x) .div (.length y) sp = .ok (.float (FP.div x y))) ∧
    (∀ (a : Int) (y : FP) (sp : Span), FP.isZero y = false →
      evalBinop (.int a) .div (.float y) sp = .ok (.float (FP.div (FP.ofInt a) y))) ∧
    (∀ (x : FP) (b : Int) (sp : Span), b ≠ 0 →
      evalBinop (.float x) .div (.int b) sp = .ok (.float (FP.div x (FP.ofInt b)))) ∧
    (∀ (a : Int) (sp : Span), evalBinop (.int a) .div (.int 0) sp =
      .error (EvalError.new .divisionByZero "division by zero" (some sp))) ∧
    (∀ (x : FP) (sp : Span), evalBinop (.float x) .div (.int 0) sp =
      .error (EvalError.new .divisionByZero "division by zero" (some sp))) ∧
    (∀ (l : Value) (y : FP) (sp : Span), FP.isZero y = true →
      evalBinop l .div (.float y) sp =
        .error (EvalError.new .divisionByZero "division by zero" (some sp))) ∧
    (∀ (l : Value) (y : FP) (sp : Span), FP.isZero y = true →
      evalBinop l .div (.length y) sp =
        .error (EvalError.new .divisionByZero "division by zero" (some sp))) ∧
    (∀ (l r : Value) (sp : Span), arithSupported .div l.kind r.kind = false →
      divZeroRhs r = false →
      evalBinop l .div r sp = .error (typeErrorBinop "/" l r sp)) := by
  refine ⟨?_, ?_, ?_, ?_, ?_, ?_, ?_, fun _ _ => rfl, fun _ _ => rfl, ?_, ?_, ?_⟩
  · intro a b sp hb
    rcases b with n | n
    · rcases n with _ | n
      · exact absurd rfl hb
      · rfl
    · rfl
  · intro x y sp hy; simp [evalBinop, divZeroCheck, hy]
  · intro x y sp hy; simp [evalBinop, divZeroCheck, hy]
  · intro x b sp _; rfl
  · intro x y sp hy; simp [evalBinop, divZeroCheck, hy]
  · intro a y sp hy; simp [evalBinop, divZeroCheck, hy]
  · intro x b sp hb
    rcases b with n | n
    · rcases n with _ | n
      · exact absurd rfl hb
      · rfl
    · rfl
  · intro l y sp hy; cases l <;> simp [evalBinop, divZeroCheck, hy]
  · intro l y sp hy; cases l <;> simp [evalBinop, divZeroCheck, hy]
  · intro l r sp h hz
    cases l <;> cases r <;>
      simp_all [arithSupported, Value.kind, divZeroRhs, evalBinop, divZeroCheck]

/-- C2 (amended): for `+ - * /`, same-type pairs succeed for Int and
Float on all four operators; Length and Angle same-type pairs succeed
for `+` and `-`; `Length/Length` yields a dimensionless Float ratio but
`Length*Length`, `Angle*Angle` and `Angle/Angle` are TypeErrors; an Int
paired with a Float is promoted to Float on all four operators; Length
scaled by an Int or Float scalar on either side of `*` — and Length
divided by a scalar — yields Length; String `+` String concatenates;
every other combination (per `arithSupported`) is a TypeError, except
that a `Float(0.0)`/`Length(0.0)` divisor is a DivisionByZero for every
numerator and an `Int(0)` divisor is a DivisionByZero for Int and Float
numerators. -/
theorem c2_arith_table :
    ((∀ (a b : Int) (sp : Span),
      evalBinop (.int a) .add (.int b) sp = .ok (.int (a + b))) ∧
    (∀ (x y : FP) (sp : Span),
      evalBinop (.float x) .add (.float y) sp = .ok (.float (FP.add x y))) ∧
    (∀ (x y : FP) (sp : Span),
      evalBinop (.length x) .add (.length y) sp = .ok (.length (FP.add x y))) ∧
    (∀ (x y : FP) (sp : Span),
      evalBinop (.angle x) .add (.angle y) sp = .ok (.angle (FP.add x y))) ∧
    (∀ (a : Int) (y : FP) (sp : Span),
      evalBinop (.int a) .add (.float y) sp = .ok (.float (FP.add (FP.ofInt a) y))) ∧
    (∀ (x : FP) (b : Int) (sp : Span),
      evalBinop (.float x) .add (.int b) sp = .ok (.float (FP.add x (FP.ofInt b)))) ∧
    (∀ (a b : String) (sp : Span),
      evalBinop (.str a) .add (.str b) sp = .ok (.str (a ++ b))) ∧
    (∀ (l r : Value) (sp : Span), arithSupported .add l.kind r.kind = false →
      evalBinop l .add r sp = .error (typeErrorBinop "+" l r sp))) ∧
    ((∀ (a b : Int) (sp : Span),
      evalBinop (.int a) .sub (.int b) sp = .ok (.int (a - b))) ∧
    (∀ (x y : FP) (sp : Span),
      evalBinop (.float x) .sub (.float y) sp = .ok (.float (FP.sub x y))) ∧
    (∀ (x y : FP) (sp : Span),
      evalBinop (.length x) .sub (.length y) sp = .ok (.length (FP.sub x y))) ∧
    (∀ (x y : FP) (sp : Span),
      evalBinop (.angle x) .sub (.angle y) sp = .ok (.angle (FP.sub x y))) ∧
    (∀ (a : Int) (y : FP) (sp : Span),
      evalBinop (.int a) .sub (.float y) sp = .ok (.float (FP.sub (FP.ofInt a) y))) ∧
    (∀ (x : FP) (b : Int) (sp : Span),
      evalBinop (.float x) .sub (.int b) sp = .ok (.float (FP.sub x (FP.ofInt b)))) ∧
    (∀ (l r : Value) (sp : Span), arithSupported .sub l.kind r.kind = false →
      evalBinop l .sub r sp = .error (typeErrorBinop "-" l r sp))) ∧
    ((∀ (a b : Int) (sp : Span),
      evalBinop (.int a) .mul (.int b) sp = .ok (.int (a * b))) ∧
    (∀ (x y : FP) (sp : Span),
      evalBinop (.float x) .mul (.float y) sp = .ok (.float (FP.mul x y))) ∧
    (∀ (x y : FP) (sp : Span),
      evalBinop (.length x) .mul (.float y) sp = .ok (.length (FP.mul x y))) ∧
    (∀ (x y : FP) (sp : Span),
      evalBinop (.float x) .mul (.length y) sp = .ok (.length (FP.mul x y))) ∧
    (∀ (x : FP) (b : Int) (sp : Span),
      evalBinop (.length x) .mul (.int b) sp = .ok (.length (FP.mul x (FP.ofInt b)))) ∧
    (∀ (a : Int) (y : FP) (sp : Span),
      evalBinop (.int a) .mul (.length y) sp = .ok (.length (FP.mul (FP.ofInt a) y))) ∧
    (∀ (a : Int) (y : FP) (sp : Span),
      evalBinop (.int a) .mul (.float y) sp = .ok (.float (FP.mul (FP.ofInt a) y))) ∧
    (∀ (x : FP) (b : Int) (sp : Span),
      evalBinop (.float x) .mul (.int b) sp = .ok (.float (FP.mul x (FP.ofInt b)))) ∧
    (∀ (l r : Value) (sp : Span), arithSupported .mul l.kind r.kind = false →
      evalBinop l .mul r sp = .error (typeErrorBinop "*" l r sp))) ∧
    ((∀ (a b : Int) (sp : Span), b ≠ 0 →
      evalBinop (.int a) .div (.int b) sp = .ok (.int (Int.tdiv a b))) ∧
    (∀ (x y : FP) (sp : Span), FP.isZero y = false →
      evalBinop (.float x) .div (.float y) sp = .ok (.float (FP.div x y))) ∧
    (∀ (x y : FP) (sp : Span), FP.isZero y = false →
      evalBinop (.length x) .div (.float y) sp = .ok (.length (FP.div x y))) ∧
    (∀ (x : FP) (b : Int) (sp : Span), b ≠ 0 →
      evalBinop (.length x) .div (.int b) sp = .ok (.length (FP.div x (FP.ofInt b)))) ∧
    (∀ (x y : FP) (sp : Span), FP.isZero y = false →
      evalBinop (.length x) .div (.length y) sp = .ok (.float (FP.div x y))) ∧
    (∀ (a : Int) (y : FP) (sp : Span), FP.isZero y = false →
      evalBinop (.int a) .div (.float y) sp = .ok (.float (FP.div (FP.ofInt a) y))) ∧
    (∀ (x : FP) (b : Int) (sp : Span), b ≠ 0 →
      evalBinop (.float x) .div (.int b) sp = .ok (.float (FP.div x (FP.ofInt b)))) ∧
    (∀ (a : Int) (sp : Span), evalBinop (.int a) .div (.int 0) sp =
      .error (EvalError.new .divisionByZero "division by zero" (some sp))) ∧
    (∀ (x : FP) (sp : Span), evalBinop (.float x) .div (.int 0) sp =
      .error (EvalError.new .divisionByZero "division by zero" (some sp))) ∧
    (∀ (l : Value) (y : FP) (sp : Span), FP.isZero y = true →
      evalBinop l .div (.float y) sp =
        .error (EvalError.new .divisionByZero "division by zero" (some sp))) ∧
    (∀ (l : Value) (y : FP) (sp : Span), FP.isZero y = true →
      evalBinop l .div (.length y) sp =
        .error (EvalError.new .divisionByZero "division by zero" (some sp))) ∧
    (∀ (l r : Value) (sp : Span), arithSupported .div l.kind r.kind = false →
      divZeroRhs r = false →
      evalBinop l .div r sp = .error (typeErrorBinop "/" l r sp))) :=
  ⟨c2aux_add, c2aux_sub, c2aux_mul, c2aux_div⟩

/-- Witness for C2: the amended table evaluated at concrete inputs. -/
theorem c2_witness :
    evalBinop (.int 7) .div (.int 2) ⟨0, 0⟩ = .ok (.int 3) ∧
    evalBinop (.bool true) .add (.int 1) ⟨0, 0⟩ =
      .error (typeErrorBinop "+" (.bool true) (.int 1) ⟨0, 0⟩) ∧
    evalBinop (.length (.finite 10)) .div (.length (.finite 4)) ⟨0, 0⟩ =
      .ok (.float (.finite (10 / 4))) ∧
    evalBinop (.int 5) .div (.float (.finite 0)) ⟨0, 0⟩ =
      .error (EvalError.new .divisionByZero "division by zero" (some ⟨0, 0⟩)) :=
  ⟨by have h := c2_arith_table.2.2.2.1 7 2 ⟨0, 0⟩ (by decide)
      simpa using h,
   c2_arith_table.1.2.2.2.2.2.2.2 (.bool true) (.int 1) ⟨0, 0⟩ (by decide),
   by have h := c2_arith_table.2.2.2.2.2.2.2.1 (.finite 10) (.finite 4) ⟨0, 0⟩
        (by decide)
      simpa [FP.div] using h,
   c2_arith_table.2.2.2.2.2.2.2.2.2.2.2.2.1 (.int 5) (.finite 0) ⟨0, 0⟩ (by decide)⟩

/-- C5: every length literal evaluates to `Length(v * factor(u))`
millimeters with the spec's factor table, and every angle literal to
`Angle(v * PI / 180)` for degrees and `Angle(v)` for radians (`PI` the
`f64` constant the code uses). -/
theorem c5_unit_conversion :
    (∀ (dag : Dag) (f : Nat) (st : St) (id : NodeId) (v : FP) (u : LengthUnit),
      dag.node id = .lengthLit v u →
      evalNode dag (f + 1) st id = .ok (.length (FP.mul v (lengthFactorSpec u)), st)) ∧
    (∀ (dag : Dag) (f : Nat) (st : St) (id : NodeId) (v : FP),
      dag.node id = .angleLit v .deg →
      evalNode dag (f + 1) st id =
        .ok (.angle (FP.div (FP.mul v (FP.finite pi64)) (FP.finite 180)), st)) ∧
    (∀ (dag : Dag) (f : Nat) (st : St) (id : NodeId) (v : FP),
      dag.node id = .angleLit v .rad →
      evalNode dag (f + 1) st id = .ok (.angle v, st)) := by
  refine ⟨?_, ?_, ?_⟩
  · intro dag f st id v u h
    cases u <;> simp [evalNode, h, length_to_mm, lengthFactorSpec, FP.mul_fin_one]
  · intro dag f st id v h
    simp [evalNode, h, angle_to_rad]
  · intro dag f st id v h
    simp [evalNode, h, angle_to_rad]

/-- Witness for C5: `1cm` is 10 mm, `90deg` is `90 * PI / 180` rad. -/
theorem c5_witness :
    evalNode ⟨[⟨.lengthLit (.finite 1) .cm, ⟨0, 0⟩⟩], [0]⟩ 1 initialSt 0 =
      .ok (.length (FP.mul (.finite 1) (lengthFactorSpec .cm)), initialSt) ∧
    evalNode ⟨[⟨.angleLit (.finite 90) .deg, ⟨0, 0⟩⟩], [0]⟩ 1 initialSt 0 =
      .ok (.angle (FP.div (FP.mul (.finite 90) (FP.finite pi64)) (FP.finite 180)),
        initialSt) :=
  ⟨c5_unit_conversion.1 ⟨[⟨.lengthLit (.finite 1) .cm, ⟨0, 0⟩⟩], [0]⟩ 0 initialSt 0
      (.finite 1) .cm rfl,
   c5_unit_conversion.2.1 ⟨[⟨.angleLit (.finite 90) .deg, ⟨0, 0⟩⟩], [0]⟩ 0 initialSt 0
      (.finite 90) rfl⟩

/-- C10: value equality on floats is IEEE equality, so `NaN == NaN`
evaluates to `Bool(false)`, `NaN != NaN` to `Bool(true)`, and a NaN
float-literal pattern never matches a NaN subject. -/
theorem c10_nan_equality :
    evalBinop (.float .nan) .eq (.float .nan) ⟨0, 0⟩ = .ok (.bool false) ∧
    evalBinop (.float .nan) .neq (.float .nan) ⟨0, 0⟩ = .ok (.bool true) ∧
    valuesEqual (.float .nan) (.float .nan) = false ∧
    matchPattern envNew (.literal ⟨.floatLit .nan, ⟨0, 0⟩⟩) (.float .nan) = none ∧
    eval ⟨[⟨.floatLit .nan, ⟨0, 0⟩⟩, ⟨.floatLit .nan, ⟨0, 0⟩⟩,
           ⟨.binOp 0 ⟨.eq, ⟨0, 0⟩⟩ 1, ⟨0, 0⟩⟩], [2]⟩ 3 = .ok (.bool false) :=
  ⟨rfl, rfl, rfl, rfl, rfl⟩

/-- C8: scanning a number whose trailing alphabetic suffix is not in
the unit table produces no error: the lexer rewinds to the position
before the suffix and emits a plain integer or float token (general,
over every source and lexer state), and the suffix is then re-scanned
as an identifier, so `10min` lexes as integer `10` plus identifier
`min` with no errors. -/
theorem c8_lexer_suffix_rewind :
    (∀ (src : List Char) (st : LexSt) (start p1 p2 p3 : Nat) (isFloat : Bool)
       (c : Char) (suffix : String),
      p1 = st.pos + countWhile Char.isDigit src st.pos →
      isFloat = ((src[p1]? == some '.') &&
        (match src[p1 + 1]? with | some c0 => c0.isDigit | none => false)) →
      p2 = (if isFloat then (p1 + 1) + countWhile Char.isDigit src (p1 + 1) else p1) →
      src[p2]? = some c →
      c.isAlpha = true →
      p3 = p2 + countWhile Char.isAlpha src p2 →
      suffix = String.mk ((src.drop p2).take (p3 - p2)) →
      ¬(suffix = "mm" ∨ suffix = "cm" ∨ suffix = "m" ∨ suffix = "in") →
      ¬(suffix = "deg" ∨ suffix = "rad") →
      scanNumber src st start =
        ⟨p2, st.tokens ++ [⟨if isFloat then .floatLit else .intLit, ⟨start, p2⟩⟩],
         st.errors⟩) ∧
    lex "10min" = ([⟨.intLit, ⟨0, 2⟩⟩, ⟨.identK, ⟨2, 5⟩⟩, ⟨.eof, ⟨5, 5⟩⟩], []) := by
  constructor
  · intro src st start p1 p2 p3 isFloat c suffix h1 h2 h3 hc ha h4 h5 h6 h7
    simp only [scanNumber]
    rw [← h1, ← h2, ← h3, hc]
    simp only [ha, if_true]
    rw [← h4, ← h5, if_neg h6, if_neg h7]
    cases isFloat <;> simp [emitNumber, emitTok]
  · decide

/-- Witness for C8: the rewind theorem applied to the literal input
`10min` at the state `scan_number` sees (one digit consumed). -/
theorem c8_witness :
    scanNumber "10min".data ⟨1, [], []⟩ 0 = ⟨2, [⟨.intLit, ⟨0, 2⟩⟩], []⟩ := by
  have h := c8_lexer_suffix_rewind.1 "10min".data ⟨1, [], []⟩ 0 2 2 5 false 'm' "min"
    (by decide) (by decide) (by decide) (by decide) (by decide) (by decide)
    (by decide) (by decide) (by decide)
  simpa using h

/-! ### Arena invariants of lowering (for C4 and C9) -/


theorem lowerInv_refl (a : LowerCtx) : LowerInv a a :=
  ⟨⟨[], by simp⟩, id, id⟩

theorem lowerInv_trans {a b c : LowerCtx} (h1 : LowerInv a b) (h2 : LowerInv b c) :
    LowerInv a c := by
  obtain ⟨⟨t1, ht1⟩, w1, p1⟩ := h1
  obtain ⟨⟨t2, ht2⟩, w2, p2⟩ := h2
  exact ⟨⟨t1 ++ t2, by simp [ht2, ht1]⟩, fun h => w2 (w1 h), fun h => p2 (p1 h)⟩

theorem dlen_le_of_inv {a b : LowerCtx} (h : LowerInv a b) : dlen a ≤ dlen b := by
  obtain ⟨⟨t, ht⟩, _, _⟩ := h
  simp [dlen, ht]

theorem lowerInv_push (ctx : LowerCtx) (n : IrNode) (sp : Span)
    (hch : ∀ c ∈ irChildren n, c < dlen ctx) (hp : isPipeNode n = false) :
    LowerInv ctx (ctx.push n sp).1 ∧ (ctx.push n sp).2 < dlen (ctx.push n sp).1 := by
  have hnodes : (ctx.push n sp).1.dag.nodes = ctx.dag.nodes ++ [⟨n, sp⟩] := by
    simp [LowerCtx.push, Dag.insert]
  have hid : (ctx.push n sp).2 = ctx.dag.nodes.length := by
    simp [LowerCtx.push, Dag.insert]
  refine ⟨⟨⟨[⟨n, sp⟩], hnodes⟩, ?_, ?_⟩, ?_⟩
  · intro hwf i d hd c hc
    rw [hnodes, List.getElem?_append] at hd
    by_cases hi : i < ctx.dag.nodes.length
    · rw [if_pos hi] at hd
      exact hwf i d hd c hc
    · rw [if_neg hi] at hd
      have h0 : i - ctx.dag.nodes.length = 0 := by
        by_contra h0
        have h1 : 1 ≤ i - ctx.dag.nodes.length := Nat.one_le_iff_ne_zero.mpr h0
        rw [List.getElem?_eq_none (by simpa using h1)] at hd
        exact Option.noConfusion hd
      rw [h0] at hd
      have hd' : d = ⟨n, sp⟩ := by
        have he : ([(⟨n, sp⟩ : IrNodeData)] : List IrNodeData)[(0 : Nat)]? =
            some ⟨n, sp⟩ := rfl
        rw [he] at hd
        exact (Option.some.inj hd).symm
      subst hd'
      have hci : c < ctx.dag.nodes.length := by simpa [dlen] using hch c hc
      exact Nat.lt_of_lt_of_le hci (Nat.le_of_not_lt hi)
  · intro hnp d hd
    rw [hnodes] at hd
    rcases List.mem_append.mp hd with h | h
    · exact hnp d h
    · simp at h
      rw [h]
      exact hp
  · have hl : dlen (ctx.push n sp).1 = ctx.dag.nodes.length + 1 := by
      simp [dlen, hnodes]
    rw [hid, hl]
    exact Nat.lt_succ_self _

/-- Compose an accumulated invariant with one final insertion. -/
theorem push_after {a : LowerCtx} (b : LowerCtx) (n : IrNode) (sp : Span)
    (hab : LowerInv a b)
    (hch : ∀ c ∈ irChildren n, c < dlen b) (hp : isPipeNode n = false) :
    LowerInv a (b.push n sp).1 ∧ (b.push n sp).2 < dlen (b.push n sp).1 :=
  ⟨lowerInv_trans hab (lowerInv_push b n sp hch hp).1, (lowerInv_push b n sp hch hp).2⟩

/-- Invariant composition for the second pipe-desugaring form (used for
every non-call pipe right-hand side). -/
theorem pipe_push_two {ctx b c : LowerCtx} {i1 i2 : NodeId} (ls sp : Span)
    (h1 : LowerInv ctx b ∧ i1 < dlen b) (h2 : LowerInv b c ∧ i2 < dlen c) :
    LowerInv ctx (c.push (.fnCall i2 [⟨none, i1, ls⟩]) sp).1 ∧
      (c.push (.fnCall i2 [⟨none, i1, ls⟩]) sp).2 <
        dlen (c.push (.fnCall i2 [⟨none, i1, ls⟩]) sp).1 := by
  refine push_after _ _ _ (lowerInv_trans h1.1 h2.1) ?_ rfl
  intro x hx
  simp only [irChildren, List.map_cons, List.map_nil, List.mem_cons,
    List.not_mem_nil, or_false] at hx
  rcases hx with rfl | rfl
  · exact h2.2
  · exact Nat.lt_of_lt_of_le h1.2 (dlen_le_of_inv h2.1)

set_option maxHeartbeats 4000000

mutual

theorem lowerStmt_inv (ctx : LowerCtx) (s : Stmt) (sp : Span) :
    LowerInv ctx (lowerStmt ctx s sp).1 ∧
      (lowerStmt ctx s sp).2 < dlen (lowerStmt ctx s sp).1 := by
  cases s with
  | letS name ty value =>
    obtain ⟨vn, vs⟩ := value
    simp only [lowerStmt]
    have h1 := lowerExpr_inv ctx vn vs
    refine push_after _ _ _ h1.1 ?_ rfl
    intro c hc
    simp only [irChildren, List.mem_cons, List.not_mem_nil, or_false] at hc
    subst hc
    exact h1.2
  | fnDef name params returnTy body =>
    obtain ⟨bn, bs⟩ := body
    simp only [lowerStmt]
    have h1 := lowerParams_inv ctx params
    have h2 := lowerExpr_inv (lowerParams ctx params).1 bn bs
    refine push_after _ _ _ (lowerInv_trans h1.1 h2.1) ?_ rfl
    intro c hc
    simp only [irChildren, List.mem_append, List.mem_filterMap,
      List.mem_cons, List.not_mem_nil, or_false] at hc
    rcases hc with ⟨p, hp, hd⟩ | rfl
    · exact Nat.lt_of_lt_of_le (h1.2 p hp c hd) (dlen_le_of_inv h2.1)
    · exact h2.2
  | dataDef name fields =>
    simp only [lowerStmt]
    have h1 := lowerFields_inv ctx fields
    refine push_after _ _ _ h1.1 ?_ rfl
    intro c hc
    simp only [irChildren, List.mem_filterMap] at hc
    obtain ⟨fl, hfl, hd⟩ := hc
    exact h1.2 fl hfl c hd
  | enumDef name variants =>
    simp only [lowerStmt]
    exact lowerInv_push ctx _ sp (by simp [irChildren]) rfl
  | exprS e =>
    obtain ⟨en, es⟩ := e
    simp only [lowerStmt]
    exact lowerExpr_inv ctx en es
termination_by sizeOf s

theorem lowerStmts_inv (ctx : LowerCtx) (l : List (Spanned Stmt)) :
    LowerInv ctx (lowerStmts ctx l).1 ∧
      ∀ id ∈ (lowerStmts ctx l).2, id < dlen (lowerStmts ctx l).1 := by
  cases l with
  | nil =>
    simp only [lowerStmts]
    exact ⟨lowerInv_refl ctx, by simp⟩
  | cons a rest =>
    obtain ⟨sn, ss⟩ := a
    simp only [lowerStmts]
    have h1 := lowerStmt_inv ctx sn ss
    have h2 := lowerStmts_inv (lowerStmt ctx sn ss).1 rest
    refine ⟨lowerInv_trans h1.1 h2.1, ?_⟩
    intro x hx
    rcases List.mem_cons.mp hx with rfl | hx
    · exact Nat.lt_of_lt_of_le h1.2 (dlen_le_of_inv h2.1)
    · exact h2.2 x hx
termination_by sizeOf l

theorem lowerExpr_inv (ctx : LowerCtx) (e : Expr) (sp : Span) :
    LowerInv ctx (lowerExpr ctx e sp).1 ∧
      (lowerExpr ctx e sp).2 < dlen (lowerExpr ctx e sp).1 := by
  cases e with
  | intLit v =>
    simp only [lowerExpr]
    exact lowerInv_push ctx _ sp (by simp [irChildren]) rfl
  | floatLit v =>
    simp only [lowerExpr]
    exact lowerInv_push ctx _ sp (by simp [irChildren]) rfl
  | lengthLit v u =>
    simp only [lowerExpr]
    exact lowerInv_push ctx _ sp (by simp [irChildren]) rfl
  | angleLit v u =>
    simp only [lowerExpr]
    exact lowerInv_push ctx _ sp (by simp [irChildren]) rfl
  | boolLit v =>
    simp only [lowerExpr]
    exact lowerInv_push ctx _ sp (by simp [irChildren]) rfl
  | stringLit v =>
    simp only [lowerExpr]
    exact lowerInv_push ctx _ sp (by simp [irChildren]) rfl
  | ident name =>
    simp only [lowerExpr]
    exact lowerInv_push ctx _ sp (by simp [irChildren]) rfl
  | binOp lhs op rhs =>
    obtain ⟨ln, ls⟩ := lhs
    obtain ⟨rn, rs⟩ := rhs
    by_cases hop : op.node = .pipe
    · simp only [lowerExpr, if_pos hop]
      exact lowerPipe_inv ctx ⟨ln, ls⟩ ⟨rn, rs⟩ sp
    · simp only [lowerExpr, if_neg hop]
      have h1 := lowerExpr_inv ctx ln ls
      have h2 := lowerExpr_inv (lowerExpr ctx ln ls).1 rn rs
      refine push_after _ _ _ (lowerInv_trans h1.1 h2.1) ?_
        (by simp [isPipeNode, hop])
      intro c hc
      simp only [irChildren, List.mem_cons, List.not_mem_nil, or_false] at hc
      rcases hc with rfl | rfl
      · exact Nat.lt_of_lt_of_le h1.2 (dlen_le_of_inv h2.1)
      · exact h2.2
  | unaryOp op operand =>
    obtain ⟨opn, ops⟩ := operand
    simp only [lowerExpr]
    have h1 := lowerExpr_inv ctx opn ops
    refine push_after _ _ _ h1.1 ?_ rfl
    intro c hc
    simp only [irChildren, List.mem_cons, List.not_mem_nil, or_false] at hc
    subst hc
    exact h1.2
  | fnCall func args =>
    obtain ⟨fn, fs⟩ := func
    simp only [lowerExpr]
    have h1 := lowerExpr_inv ctx fn fs
    have h2 := lowerArgs_inv (lowerExpr ctx fn fs).1 args
    refine push_after _ _ _ (lowerInv_trans h1.1 h2.1) ?_ rfl
    intro c hc
    simp only [irChildren, List.mem_cons, List.mem_map] at hc
    rcases hc with rfl | ⟨a, ha, rfl⟩
    · exact Nat.lt_of_lt_of_le h1.2 (dlen_le_of_inv h2.1)
    · exact h2.2 a ha
  | fieldAccess object field =>
    obtain ⟨obn, obs⟩ := object
    simp only [lowerExpr]
    have h1 := lowerExpr_inv ctx obn obs
    refine push_after _ _ _ h1.1 ?_ rfl
    intro c hc
    simp only [irChildren, List.mem_cons, List.not_mem_nil, or_false] at hc
    subst hc
    exact h1.2
  | lambda params body =>
    obtain ⟨bn, bs⟩ := body
    simp only [lowerExpr]
    have h1 := lowerParams_inv ctx params
    have h2 := lowerExpr_inv (lowerParams ctx params).1 bn bs
    refine push_after _ _ _ (lowerInv_trans h1.1 h2.1) ?_ rfl
    intro c hc
    simp only [irChildren, List.mem_append, List.mem_filterMap,
      List.mem_cons, List.not_mem_nil, or_false] at hc
    rcases hc with ⟨p, hp, hd⟩ | rfl
    · exact Nat.lt_of_lt_of_le (h1.2 p hp c hd) (dlen_le_of_inv h2.1)
    · exact h2.2
  | list elems =>
    simp only [lowerExpr]
    have h1 := lowerExprList_inv ctx elems
    refine push_after _ _ _ h1.1 ?_ rfl
    intro c hc
    simp only [irChildren] at hc
    exact h1.2 c hc
  | dataConstructor name fields =>
    simp only [lowerExpr]
    have h1 := lowerFieldInits_inv ctx fields
    refine push_after _ _ _ h1.1 ?_ rfl
    intro c hc
    simp only [irChildren, List.mem_map] at hc
    obtain ⟨fi, hfi, rfl⟩ := hc
    exact h1.2 fi hfi
  | withUpdate base updates =>
    obtain ⟨bn, bs⟩ := base
    simp only [lowerExpr]
    have h1 := lowerExpr_inv ctx bn bs
    have h2 := lowerFieldInits_inv (lowerExpr ctx bn bs).1 updates
    refine push_after _ _ _ (lowerInv_trans h1.1 h2.1) ?_ rfl
    intro c hc
    simp only [irChildren, List.mem_cons, List.mem_map] at hc
    rcases hc with rfl | ⟨fi, hfi, rfl⟩
    · exact Nat.lt_of_lt_of_le h1.2 (dlen_le_of_inv h2.1)
    · exact h2.2 fi hfi
  | ifE cond thenBranch elseBranch =>
    obtain ⟨cn, cs⟩ := cond
    obtain ⟨tn, ts⟩ := thenBranch
    simp only [lowerExpr]
    have h1 := lowerExpr_inv ctx cn cs
    have h2 := lowerExpr_inv (lowerExpr ctx cn cs).1 tn ts
    have h3 := lowerOptExpr_inv (lowerExpr (lowerExpr ctx cn cs).1 tn ts).1 elseBranch
    refine push_after _ _ _ (lowerInv_trans h1.1 (lowerInv_trans h2.1 h3.1)) ?_ rfl
    intro c hc
    simp only [irChildren, List.mem_append, List.mem_cons, List.not_mem_nil,
      or_false, Option.mem_toList, Option.mem_def] at hc
    rcases hc with (rfl | rfl) | hsome
    · exact Nat.lt_of_lt_of_le h1.2
        (Nat.le_trans (dlen_le_of_inv h2.1) (dlen_le_of_inv h3.1))
    · exact Nat.lt_of_lt_of_le h2.2 (dlen_le_of_inv h3.1)
    · exact h3.2 c hsome
  | matchE subject arms =>
    obtain ⟨sn, ss⟩ := subject
    simp only [lowerExpr]
    have h1 := lowerExpr_inv ctx sn ss
    have h2 := lowerMatchArms_inv (lowerExpr ctx sn ss).1 arms
    refine push_after _ _ _ (lowerInv_trans h1.1 h2.1) ?_ rfl
    intro c hc
    simp only [irChildren, List.mem_cons, List.mem_map] at hc
    rcases hc with rfl | ⟨a, ha, rfl⟩
    · exact Nat.lt_of_lt_of_le h1.2 (dlen_le_of_inv h2.1)
    · exact h2.2 a ha
  | block stmts tail =>
    simp only [lowerExpr]
    have h1 := lowerStmts_inv ctx stmts
    have h2 := lowerOptExpr_inv (lowerStmts ctx stmts).1 tail
    refine push_after _ _ _ (lowerInv_trans h1.1 h2.1) ?_ rfl
    intro c hc
    simp only [irChildren, List.mem_append, Option.mem_toList, Option.mem_def] at hc
    rcases hc with hmem | hsome
    · exact Nat.lt_of_lt_of_le (h1.2 c hmem) (dlen_le_of_inv h2.1)
    · exact h2.2 c hsome
  | grouped inner =>
    obtain ⟨en, es⟩ := inner
    simp only [lowerExpr]
    exact lowerExpr_inv ctx en es
termination_by sizeOf e

theorem lowerOptExpr_inv (ctx : LowerCtx) (o : Option (Spanned Expr)) :
    LowerInv ctx (lowerOptExpr ctx o).1 ∧
      ∀ id, (lowerOptExpr ctx o).2 = some id → id < dlen (lowerOptExpr ctx o).1 := by
  cases o with
  | none =>
    simp only [lowerOptExpr]
    exact ⟨lowerInv_refl ctx, fun id h => Option.noConfusion h⟩
  | some v =>
    obtain ⟨en, es⟩ := v
    simp only [lowerOptExpr]
    have h1 := lowerExpr_inv ctx en es
    refine ⟨h1.1, ?_⟩
    intro id h
    obtain rfl := Option.some.inj h
    exact h1.2
termination_by sizeOf o

theorem lowerPipe_inv (ctx : LowerCtx) (lhs rhs : Spanned Expr) (sp : Span) :
    LowerInv ctx (lowerPipe ctx lhs rhs sp).1 ∧
      (lowerPipe ctx lhs rhs sp).2 < dlen (lowerPipe ctx lhs rhs sp).1 := by
  obtain ⟨ln, ls⟩ := lhs
  obtain ⟨rn, rs⟩ := rhs
  cases rn
  case fnCall func args =>
    obtain ⟨fn, fs⟩ := func
    rw [lowerPipe.eq_def]
    have h1 := lowerExpr_inv ctx ln ls
    have h2 := lowerExpr_inv (lowerExpr ctx ln ls).1 fn fs
    have h3 := lowerArgs_inv (lowerExpr (lowerExpr ctx ln ls).1 fn fs).1 args
    refine push_after _ _ _ (lowerInv_trans h1.1 (lowerInv_trans h2.1 h3.1)) ?_ rfl
    intro c hc
    simp only [irChildren, List.map_cons, List.mem_cons, List.mem_map] at hc
    rcases hc with rfl | rfl | ⟨a, ha, rfl⟩
    · exact Nat.lt_of_lt_of_le h2.2 (dlen_le_of_inv h3.1)
    · exact Nat.lt_of_lt_of_le h1.2
        (Nat.le_trans (dlen_le_of_inv h2.1) (dlen_le_of_inv h3.1))
    · exact h3.2 a ha
  all_goals
    rw [lowerPipe.eq_def]
    refine pipe_push_two _ _ (lowerExpr_inv ctx ln ls) ?_
    exact lowerExpr_inv (lowerExpr ctx ln ls).1 _ rs
termination_by sizeOf lhs + sizeOf rhs

theorem lowerExprList_inv (ctx : LowerCtx) (l : List (Spanned Expr)) :
    LowerInv ctx (lowerExprList ctx l).1 ∧
      ∀ id ∈ (lowerExprList ctx l).2, id < dlen (lowerExprList ctx l).1 := by
  cases l with
  | nil =>
    simp only [lowerExprList]
    exact ⟨lowerInv_refl ctx, by simp⟩
  | cons a rest =>
    obtain ⟨en, es⟩ := a
    simp only [lowerExprList]
    have h1 := lowerExpr_inv ctx en es
    have h2 := lowerExprList_inv (lowerExpr ctx en es).1 rest
    refine ⟨lowerInv_trans h1.1 h2.1, ?_⟩
    intro x hx
    rcases List.mem_cons.mp hx with rfl | hx
    · exact Nat.lt_of_lt_of_le h1.2 (dlen_le_of_inv h2.1)
    · exact h2.2 x hx
termination_by sizeOf l

theorem lowerArgs_inv (ctx : LowerCtx) (l : List AstArg) :
    LowerInv ctx (lowerArgs ctx l).1 ∧
      ∀ a ∈ (lowerArgs ctx l).2, a.value < dlen (lowerArgs ctx l).1 := by
  cases l with
  | nil =>
    simp only [lowerArgs]
    exact ⟨lowerInv_refl ctx, by simp⟩
  | cons a rest =>
    obtain ⟨aname, av, asp⟩ := a
    obtain ⟨vn, vs⟩ := av
    simp only [lowerArgs]
    have h1 := lowerExpr_inv ctx vn vs
    have h2 := lowerArgs_inv (lowerExpr ctx vn vs).1 rest
    refine ⟨lowerInv_trans h1.1 h2.1, ?_⟩
    intro x hx
    rcases List.mem_cons.mp hx with rfl | hx
    · exact Nat.lt_of_lt_of_le h1.2 (dlen_le_of_inv h2.1)
    · exact h2.2 x hx
termination_by sizeOf l

theorem lowerParams_inv (ctx : LowerCtx) (l : List AstParam) :
    LowerInv ctx (lowerParams ctx l).1 ∧
      ∀ p ∈ (lowerParams ctx l).2, ∀ d, p.default = some d →
        d < dlen (lowerParams ctx l).1 := by
  cases l with
  | nil =>
    simp only [lowerParams]
    exact ⟨lowerInv_refl ctx, by simp⟩
  | cons p rest =>
    obtain ⟨pname, pty, pdflt, psp⟩ := p
    simp only [lowerParams]
    have h1 := lowerOptExpr_inv ctx pdflt
    have h2 := lowerParams_inv (lowerOptExpr ctx pdflt).1 rest
    refine ⟨lowerInv_trans h1.1 h2.1, ?_⟩
    intro x hx d hd
    rcases List.mem_cons.mp hx with rfl | hx
    · exact Nat.lt_of_lt_of_le (h1.2 d hd) (dlen_le_of_inv h2.1)
    · exact h2.2 x hx d hd
termination_by sizeOf l

theorem lowerFieldInits_inv (ctx : LowerCtx) (l : List AstFieldInit) :
    LowerInv ctx (lowerFieldInits ctx l).1 ∧
      ∀ fi ∈ (lowerFieldInits ctx l).2, fi.value < dlen (lowerFieldInits ctx l).1 := by
  cases l with
  | nil =>
    simp only [lowerFieldInits]
    exact ⟨lowerInv_refl ctx, by simp⟩
  | cons a rest =>
    obtain ⟨aname, av, asp⟩ := a
    obtain ⟨vn, vs⟩ := av
    simp only [lowerFieldInits]
    have h1 := lowerExpr_inv ctx vn vs
    have h2 := lowerFieldInits_inv (lowerExpr ctx vn vs).1 rest
    refine ⟨lowerInv_trans h1.1 h2.1, ?_⟩
    intro x hx
    rcases List.mem_cons.mp hx with rfl | hx
    · exact Nat.lt_of_lt_of_le h1.2 (dlen_le_of_inv h2.1)
    · exact h2.2 x hx
termination_by sizeOf l

theorem lowerMatchArms_inv (ctx : LowerCtx) (l : List AstMatchArm) :
    LowerInv ctx (lowerMatchArms ctx l).1 ∧
      ∀ a ∈ (lowerMatchArms ctx l).2, a.body < dlen (lowerMatchArms ctx l).1 := by
  cases l with
  | nil =>
    simp only [lowerMatchArms]
    exact ⟨lowerInv_refl ctx, by simp⟩
  | cons a rest =>
    obtain ⟨pat, ab, asp⟩ := a
    obtain ⟨bn, bs⟩ := ab
    simp only [lowerMatchArms]
    have h1 := lowerExpr_inv ctx bn bs
    have h2 := lowerMatchArms_inv (lowerExpr ctx bn bs).1 rest
    refine ⟨lowerInv_trans h1.1 h2.1, ?_⟩
    intro x hx
    rcases List.mem_cons.mp hx with rfl | hx
    · exact Nat.lt_of_lt_of_le h1.2 (dlen_le_of_inv h2.1)
    · exact h2.2 x hx
termination_by sizeOf l

theorem lowerFields_inv (ctx : LowerCtx) (l : List AstField) :
    LowerInv ctx (lowerFields ctx l).1 ∧
      ∀ fl ∈ (lowerFields ctx l).2, ∀ d, fl.default = some d →
        d < dlen (lowerFields ctx l).1 := by
  cases l with
  | nil =>
    simp only [lowerFields]
    exact ⟨lowerInv_refl ctx, by simp⟩
  | cons p rest =>
    obtain ⟨pname, pty, pdflt, psp⟩ := p
    simp only [lowerFields]
    have h1 := lowerOptExpr_inv ctx pdflt
    have h2 := lowerFields_inv (lowerOptExpr ctx pdflt).1 rest
    refine ⟨lowerInv_trans h1.1 h2.1, ?_⟩
    intro x hx d hd
    rcases List.mem_cons.mp hx with rfl | hx
    · exact Nat.lt_of_lt_of_le (h1.2 d hd) (dlen_le_of_inv h2.1)
    · exact h2.2 x hx d hd
termination_by sizeOf l

end


theorem lowerExpr_pipe_eq (ctx : LowerCtx) (ln : Expr) (ls : Span) (rn : Expr)
    (rs osp sp : Span) :
    lowerExpr ctx (.binOp ⟨ln, ls⟩ ⟨.pipe, osp⟩ ⟨rn, rs⟩) sp =
      lowerPipe ctx ⟨ln, ls⟩ ⟨rn, rs⟩ sp := by
  rw [lowerExpr.eq_def]
  rfl

theorem lowerPipe_notCall_eq (ctx : LowerCtx) (ln : Expr) (ls : Span) (rn : Expr)
    (rs sp : Span) (h : rn.isFnCallB = false) :
    lowerPipe ctx ⟨ln, ls⟩ ⟨rn, rs⟩ sp =
      ((lowerExpr (lowerExpr ctx ln ls).1 rn rs).1.push
        (.fnCall (lowerExpr (lowerExpr ctx ln ls).1 rn rs).2
          [⟨none, (lowerExpr ctx ln ls).2, ls⟩]) sp) := by
  cases rn
  case fnCall func args => simp [Expr.isFnCallB] at h
  all_goals rw [lowerPipe.eq_def]

/-- C4: pipe desugaring.  `a |> f` lowers to `FnCall{func: f, args:
[a]}`; `a |> f(b, c)` lowers with the piped value prepended as the
first unnamed argument; the left-associated chain `a |> f |> g` lowers
to the call structure `g(f(a))`; and no arena produced by lowering any
source file contains a pipe binary-op node. -/
theorem c4_pipe_desugaring :
    (∀ (ctx : LowerCtx) (ln rn : Expr) (ls rs osp sp : Span),
      rn.isFnCallB = false →
      lowerExpr ctx (.binOp ⟨ln, ls⟩ ⟨.pipe, osp⟩ ⟨rn, rs⟩) sp =
        ((lowerExpr (lowerExpr ctx ln ls).1 rn rs).1.push
          (.fnCall (lowerExpr (lowerExpr ctx ln ls).1 rn rs).2
            [⟨none, (lowerExpr ctx ln ls).2, ls⟩]) sp)) ∧
    (∀ (ctx : LowerCtx) (ln fn : Expr) (args : List AstArg) (ls fs rs osp sp : Span),
      lowerExpr ctx (.binOp ⟨ln, ls⟩ ⟨.pipe, osp⟩ ⟨.fnCall ⟨fn, fs⟩ args, rs⟩) sp =
        ((lowerArgs (lowerExpr (lowerExpr ctx ln ls).1 fn fs).1 args).1.push
          (.fnCall (lowerExpr (lowerExpr ctx ln ls).1 fn fs).2
            (⟨none, (lowerExpr ctx ln ls).2, ls⟩ ::
              (lowerArgs (lowerExpr (lowerExpr ctx ln ls).1 fn fs).1 args).2)) sp)) ∧
    ((lowerExpr ⟨Dag.new, []⟩ chainExpr ⟨0, 0⟩).1.dag.nodes =
      [⟨.ident "a", ⟨0, 0⟩⟩, ⟨.ident "f", ⟨0, 0⟩⟩,
       ⟨.fnCall 1 [⟨none, 0, ⟨0, 0⟩⟩], ⟨0, 0⟩⟩,
       ⟨.ident "g", ⟨0, 0⟩⟩, ⟨.fnCall 3 [⟨none, 2, ⟨0, 0⟩⟩], ⟨0, 0⟩⟩] ∧
     (lowerExpr ⟨Dag.new, []⟩ chainExpr ⟨0, 0⟩).2 = 4) ∧
    (∀ src : SourceFile, NoPipe (lower src).1) := by
  refine ⟨?_, ?_, ?_, ?_⟩
  · intro ctx ln rn ls rs osp sp h
    exact (lowerExpr_pipe_eq ctx ln ls rn rs osp sp).trans
      (lowerPipe_notCall_eq ctx ln ls rn rs sp h)
  · intro ctx ln fn args ls fs rs osp sp
    refine (lowerExpr_pipe_eq ctx ln ls (.fnCall ⟨fn, fs⟩ args) rs osp sp).trans ?_
    rw [lowerPipe.eq_def]
  · constructor <;>
      simp [chainExpr, lowerExpr, lowerPipe, LowerCtx.push, Dag.insert, Dag.new]
  · intro src
    have h := lowerStmts_inv ⟨Dag.new, []⟩ src.stmts
    have hnp0 : NoPipe (⟨Dag.new, []⟩ : LowerCtx).dag := by
      intro d hd
      simp [Dag.new] at hd
    have hnp := h.1.2.2 hnp0
    intro d hd
    have hnodes : (lower src).1.nodes =
        (lowerStmts ⟨Dag.new, []⟩ src.stmts).1.dag.nodes := by
      simp [lower]
    rw [hnodes] at hd
    exact hnp d hd

/-- Witness for C4: the simple-pipe form applied to `a |> f`. -/
theorem c4_witness :
    lowerExpr ⟨Dag.new, []⟩
        (.binOp ⟨.ident "a", ⟨0, 0⟩⟩ ⟨.pipe, ⟨0, 0⟩⟩ ⟨.ident "f", ⟨0, 0⟩⟩) ⟨0, 0⟩ =
      ((lowerExpr (lowerExpr ⟨Dag.new, []⟩ (.ident "a") ⟨0, 0⟩).1
          (.ident "f") ⟨0, 0⟩).1.push
        (.fnCall
          (lowerExpr (lowerExpr ⟨Dag.new, []⟩ (.ident "a") ⟨0, 0⟩).1
            (.ident "f") ⟨0, 0⟩).2
          [⟨none, (lowerExpr ⟨Dag.new, []⟩ (.ident "a") ⟨0, 0⟩).2, ⟨0, 0⟩⟩]) ⟨0, 0⟩) :=
  c4_pipe_desugaring.1 ⟨Dag.new, []⟩ (.ident "a") (.ident "f") ⟨0, 0⟩ ⟨0, 0⟩ ⟨0, 0⟩
    ⟨0, 0⟩ rfl

/-- C9: every arena produced by lowering a source file is
insertion-ordered: each `NodeId` a node references is strictly smaller
than the node's own index, and every root is a valid index, so a
tree-walking evaluator following child references can never loop. -/
theorem c9_arena_wellformed (src : SourceFile) :
    WfArena (lower src).1 ∧
      ∀ r ∈ (lower src).1.roots, r < (lower src).1.nodes.length := by
  have h := lowerStmts_inv ⟨Dag.new, []⟩ src.stmts
  have hnodes : (lower src).1.nodes =
      (lowerStmts ⟨Dag.new, []⟩ src.stmts).1.dag.nodes := by
    simp [lower]
  constructor
  · have hwf0 : WfArena (⟨Dag.new, []⟩ : LowerCtx).dag := by
      intro i d hd c hc
      simp [Dag.new] at hd
    have hW := h.1.2.1 hwf0
    intro i d hd c hc
    rw [hnodes] at hd
    exact hW i d hd c hc
  · intro r hr
    have hroots : (lower src).1.roots = (lowerStmts ⟨Dag.new, []⟩ src.stmts).2 := by
      simp [lower]
    rw [hroots] at hr
    rw [hnodes]
    exact h.2 r hr

/-- Witness for C9: in the lowered `a |> f`, node 2 is the desugared
call and both of its children, 1 (the callee) and 0 (the piped
argument), were inserted earlier. -/
theorem c9_witness :
    (lower srcPipe).1.nodes[2]? =
      some ⟨.fnCall 1 [⟨none, 0, ⟨0, 0⟩⟩], ⟨0, 0⟩⟩ ∧
    (0 : NodeId) < 2 ∧ (1 : NodeId) < 2 := by
  have hn : (lower srcPipe).1.nodes[2]? =
      some ⟨.fnCall 1 [⟨none, 0, ⟨0, 0⟩⟩], ⟨0, 0⟩⟩ := by
    simp [srcPipe, lower, lowerStmts, lowerStmt, lowerExpr.eq_def,
      lowerPipe.eq_def, LowerCtx.push, Dag.insert, Dag.new]
  refine ⟨hn, ?_, ?_⟩
  · exact (c9_arena_wellformed srcPipe).1 2 _ hn 0 (by simp [irChildren])
  · exact (c9_arena_wellformed srcPipe).1 2 _ hn 1 (by simp [irChildren])

/-! ### The environment frame property of evaluation (for C6) -/


theorem envFrame_refl (e : Env) : EnvFrame e e := ⟨rfl, rfl⟩

theorem envFrame_trans {a b c : Env} (h1 : EnvFrame a b) (h2 : EnvFrame b c) :
    EnvFrame a c := ⟨h2.1.trans h1.1, h2.2.trans h1.2⟩

theorem envFrame_define (e : Env) (n : String) (v : Value) :
    EnvFrame e (envDefine e n v) := by
  cases e <;> simp [envDefine, EnvFrame]

theorem envFrame_foldl_define (bs : List (String × Value)) (e : Env) :
    EnvFrame e (bs.foldl (fun acc b => envDefine acc b.1 b.2) e) := by
  induction bs generalizing e with
  | nil => exact envFrame_refl e
  | cons b rest ih =>
    exact envFrame_trans (envFrame_define e b.1 b.2) (ih (envDefine e b.1 b.2))

theorem envFrame_enum (e : Env) (tn : String) (vs : List (Spanned String)) :
    EnvFrame e (defineEnumVariants e tn vs) := by
  induction vs generalizing e with
  | nil => exact envFrame_refl e
  | cons v rest ih =>
    exact envFrame_trans (envFrame_define e v.node (.enumVariant tn v.node))
      (ih (envDefine e v.node (.enumVariant tn v.node)))

/-- A frame over a pushed scope pops back to exactly the original
stack. -/
theorem pop_of_frame_push {e e' : Env} (h : EnvFrame (envPush e) e') :
    envPop e' = e := by
  obtain ⟨hl, ht⟩ := h
  cases e' with
  | nil => simp [envPush] at hl
  | cons hd tl => simpa [envPop, envPush] using ht

theorem ok_snd_eq {α : Type} {x v : α} {s t : St}
    (h : (Except.ok (x, s) : EvalResult (α × St)) = .ok (v, t)) : t = s :=
  (congrArg Prod.snd (Except.ok.inj h)).symm

theorem ok_st_eq {s t : St} (h : (Except.ok s : EvalResult St) = .ok t) : t = s :=
  (Except.ok.inj h).symm


theorem frame_all (dag : Dag) : ∀ f, FrameAt dag f := by
  intro f
  induction f with
  | zero =>
    refine ⟨?_, ?_, ?_, ?_, ?_, ?_, ?_, ?_, ?_, ?_, ?_⟩
    · intro st id v st' h; simp [evalNode] at h
    · intro st l vs st' h; simp [evalNodeList] at h
    · intro st l st' h; simp [evalSeq] at h
    · intro st l fvs st' h; simp [evalFieldInitList] at h
    · intro st tn fields l r st' h; simp [applyUpdates] at h
    · intro st subj arms sp v st' h; simp [evalArms] at h
    · intro st fv args sp v st' h; simp [evalCall] at h
    · intro st l vs st' h; simp [evalArgsPositional] at h
    · intro st params slots pi l sp r st' h; simp [resolvePass1] at h
    · intro st pl sp r st' h; simp [resolvePass2] at h
    · intro st params l sp r st' h; simp [resolveArgs] at h
  | succ f IH =>
    obtain ⟨ihN, ihL, ihSeq, ihF, ihU, ihA, ihC, ihP, ih1, ih2, ihR⟩ := IH
    refine ⟨?_, ?_, ?_, ?_, ?_, ?_, ?_, ?_, ?_, ?_, ?_⟩
    · -- evalNode
      intro st id v st' h
      simp only [evalNode] at h
      cases hn : dag.node id <;> simp only [hn] at h
      case intLit => rw [ok_snd_eq h]; exact envFrame_refl _
      case floatLit => rw [ok_snd_eq h]; exact envFrame_refl _
      case lengthLit => rw [ok_snd_eq h]; exact envFrame_refl _
      case angleLit => rw [ok_snd_eq h]; exact envFrame_refl _
      case boolLit => rw [ok_snd_eq h]; exact envFrame_refl _
      case stringLit => rw [ok_snd_eq h]; exact envFrame_refl _
      case lambda => rw [ok_snd_eq h]; exact envFrame_refl _
      case ident name =>
        rcases hL : envLookup st.env name with _ | w <;> simp only [hL] at h
        · exact absurd h (by simp)
        · rw [ok_snd_eq h]; exact envFrame_refl _
      case binOp lhs op rhs =>
        rcases hE1 : evalNode dag f st lhs with e1 | ⟨l, st1⟩ <;>
          simp only [hE1] at h
        · exact absurd h (by simp)
        rcases hE2 : evalNode dag f st1 rhs with e2 | ⟨r, st2⟩ <;>
          simp only [hE2] at h
        · exact absurd h (by simp)
        rcases hB : evalBinop l op.node r (dag.spanOf id) with e3 | vv <;>
          simp only [hB] at h
        · exact absurd h (by simp)
        · rw [ok_snd_eq h]
          exact envFrame_trans (ihN st lhs l st1 hE1) (ihN st1 rhs r st2 hE2)
      case unaryOp op operand =>
        rcases hE1 : evalNode dag f st operand with e1 | ⟨w, st1⟩ <;>
          simp only [hE1] at h
        · exact absurd h (by simp)
        rcases hU : evalUnaryop op.node w (dag.spanOf id) with e2 | vv <;>
          simp only [hU] at h
        · exact absurd h (by simp)
        · rw [ok_snd_eq h]
          exact ihN st operand w st1 hE1
      case fnCall func args =>
        rcases hE1 : evalNode dag f st func with e1 | ⟨fv, st1⟩ <;>
          simp only [hE1] at h
        · exact absurd h (by simp)
        · exact envFrame_trans (ihN st func fv st1 hE1)
            (ihC st1 fv args (dag.spanOf id) v st' h)
      case fieldAccess object field =>
        rcases hE1 : evalNode dag f st object with e1 | ⟨obj, st1⟩ <;>
          simp only [hE1] at h
        · exact absurd h (by simp)
        cases obj <;> simp only [] at h
        case data tn fields =>
          rcases hF : fields.find? (fun p => p.1 == field.node) with _ | p <;>
            simp only [hF] at h
          · exact absurd h (by simp)
          · rw [ok_snd_eq h]
            exact ihN st object (.data tn fields) st1 hE1
        all_goals simp at h
      case list elems =>
        rcases hE : evalNodeList dag f st elems with e | ⟨items, st1⟩ <;>
          simp only [hE] at h
        · exact absurd h (by simp)
        · rw [ok_snd_eq h]
          exact ihL st elems items st1 hE
      case dataConstructor name fields =>
        rcases hE : evalFieldInitList dag f st fields with e | ⟨fvs, st1⟩ <;>
          simp only [hE] at h
        · exact absurd h (by simp)
        · rw [ok_snd_eq h]
          exact ihF st fields fvs st1 hE
      case withUpdate base updates =>
        rcases hE : evalNode dag f st base with e | ⟨bv, st1⟩ <;>
          simp only [hE] at h
        · exact absurd h (by simp)
        cases bv <;> simp only [] at h
        case data tn fields =>
          rcases hA2 : applyUpdates dag f st1 tn fields updates with e | ⟨r2, st2⟩ <;>
            simp only [hA2] at h
          · exact absurd h (by simp)
          · rw [ok_snd_eq h]
            exact envFrame_trans (ihN st base (.data tn fields) st1 hE)
              (ihU st1 tn fields updates r2 st2 hA2)
        all_goals simp at h
      case ifE cond thenBranch elseBranch =>
        rcases hE : evalNode dag f st cond with e | ⟨cv, st1⟩ <;>
          simp only [hE] at h
        · exact absurd h (by simp)
        cases cv
        case bool b =>
          cases b
          · simp only [] at h
            cases elseBranch with
            | some eb =>
              simp only [] at h
              exact envFrame_trans (ihN st cond (.bool false) st1 hE)
                (ihN st1 eb v st' h)
            | none =>
              simp only [] at h
              rw [ok_snd_eq h]
              exact ihN st cond (.bool false) st1 hE
          · simp only [] at h
            exact envFrame_trans (ihN st cond (.bool true) st1 hE)
              (ihN st1 thenBranch v st' h)
        all_goals simp at h
      case matchE subject arms =>
        rcases hE : evalNode dag f st subject with e | ⟨subj, st1⟩ <;>
          simp only [hE] at h
        · exact absurd h (by simp)
        · exact envFrame_trans (ihN st subject subj st1 hE)
            (ihA st1 subj arms (dag.spanOf id) v st' h)
      case block stmts tail =>
        rcases hS : evalSeq dag f { st with env := envPush st.env } stmts
            with e | st1 <;> simp only [hS] at h
        · exact absurd h (by simp)
        cases tail with
        | none =>
          simp only [] at h
          rw [ok_snd_eq h]
          have hf : EnvFrame (envPush st.env) st1.env := ihSeq _ stmts st1 hS
          show EnvFrame st.env (envPop st1.env)
          rw [pop_of_frame_push hf]
          exact envFrame_refl _
        | some t =>
          rcases hT : evalNode dag f st1 t with e | ⟨vt, st2⟩ <;>
            simp only [hT] at h
          · exact absurd h (by simp)
          · rw [ok_snd_eq h]
            have hf : EnvFrame (envPush st.env) st2.env :=
              envFrame_trans (ihSeq _ stmts st1 hS) (ihN st1 t vt st2 hT)
            show EnvFrame st.env (envPop st2.env)
            rw [pop_of_frame_push hf]
            exact envFrame_refl _
      case letS name ty value =>
        rcases hE : evalNode dag f st value with e | ⟨w, st1⟩ <;>
          simp only [hE] at h
        · exact absurd h (by simp)
        · rw [ok_snd_eq h]
          exact envFrame_trans (ihN st value w st1 hE)
            (envFrame_define st1.env name.node w)
      case fnDef name params returnTy body =>
        rw [ok_snd_eq h]
        exact envFrame_define st.env name.node _
      case dataDef name fields =>
        rw [ok_snd_eq h]
        exact envFrame_refl _
      case enumDef name variants =>
        rw [ok_snd_eq h]
        exact envFrame_enum st.env name.node variants
    · -- evalNodeList
      intro st l vs st' h
      cases l with
      | nil =>
        simp only [evalNodeList] at h
        rw [ok_snd_eq h]; exact envFrame_refl _
      | cons n rest =>
        simp only [evalNodeList] at h
        rcases hE : evalNode dag f st n with e | ⟨w, st1⟩ <;> simp only [hE] at h
        · exact absurd h (by simp)
        rcases hR : evalNodeList dag f st1 rest with e | ⟨ws, st2⟩ <;>
          simp only [hR] at h
        · exact absurd h (by simp)
        · rw [ok_snd_eq h]
          exact envFrame_trans (ihN st n w st1 hE) (ihL st1 rest ws st2 hR)
    · -- evalSeq
      intro st l st' h
      cases l with
      | nil =>
        simp only [evalSeq] at h
        rw [ok_st_eq h]; exact envFrame_refl _
      | cons n rest =>
        simp only [evalSeq] at h
        rcases hE : evalNode dag f st n with e | ⟨w, st1⟩ <;> simp only [hE] at h
        · exact absurd h (by simp)
        · exact envFrame_trans (ihN st n w st1 hE) (ihSeq st1 rest st' h)
    · -- evalFieldInitList
      intro st l fvs st' h
      cases l with
      | nil =>
        simp only [evalFieldInitList] at h
        rw [ok_snd_eq h]; exact envFrame_refl _
      | cons fi rest =>
        simp only [evalFieldInitList] at h
        rcases hE : evalNode dag f st fi.value with e | ⟨w, st1⟩ <;>
          simp only [hE] at h
        · exact absurd h (by simp)
        rcases hR : evalFieldInitList dag f st1 rest with e | ⟨ws, st2⟩ <;>
          simp only [hR] at h
        · exact absurd h (by simp)
        · rw [ok_snd_eq h]
          exact envFrame_trans (ihN st fi.value w st1 hE)
            (ihF st1 rest ws st2 hR)
    · -- applyUpdates
      intro st tn fields l r st' h
      cases l with
      | nil =>
        simp only [applyUpdates] at h
        rw [ok_snd_eq h]; exact envFrame_refl _
      | cons upd rest =>
        simp only [applyUpdates] at h
        rcases hE : evalNode dag f st upd.value with e | ⟨w, st1⟩ <;>
          simp only [hE] at h
        · exact absurd h (by simp)
        cases hc : fields.any (fun p => p.1 == upd.name.node) <;>
          simp only [hc] at h
        · exact absurd h (by simp)
        · exact envFrame_trans (ihN st upd.value w st1 hE)
            (ihU st1 tn (setField fields upd.name.node w) rest r st' h)
    · -- evalArms
      intro st subj arms sp v st' h
      cases arms with
      | nil => simp [evalArms] at h
      | cons arm rest =>
        simp only [evalArms] at h
        rcases hM : matchPattern st.env arm.pattern.node subj with _ | bindings <;>
          simp only [hM] at h
        · exact ihA st subj rest sp v st' h
        · rcases hB : evalNode dag f
              { st with env :=
                  bindings.foldl (fun e b => envDefine e b.1 b.2) (envPush st.env) }
              arm.body with e | ⟨vb, st2⟩ <;> simp only [hB] at h
          · exact absurd h (by simp)
          · rw [ok_snd_eq h]
            have hf : EnvFrame (envPush st.env) st2.env :=
              envFrame_trans (envFrame_foldl_define bindings (envPush st.env))
                (ihN _ arm.body vb st2 hB)
            show EnvFrame st.env (envPop st2.env)
            rw [pop_of_frame_push hf]
            exact envFrame_refl _
    · -- evalCall
      intro st fv args sp v st' h
      simp only [evalCall] at h
      cases fv <;> simp only [] at h
      case builtinFn name =>
        rcases hA2 : evalArgsPositional dag f st args with e | p <;>
          simp only [hA2] at h <;> exact absurd h (by simp)
      case function params body closureEnv =>
        rcases hR : resolveArgs dag f st params args sp with e | ⟨argVals, st1⟩ <;>
          simp only [hR] at h
        · exact absurd h (by simp)
        rcases hB : evalNode dag f
            ⟨defineParams (envPush closureEnv) params argVals, st1.dataTypes⟩
            body with e | ⟨vb, stB⟩ <;> simp only [hB] at h
        · exact absurd h (by simp)
        · rw [ok_snd_eq h]
          exact ihR st params args sp argVals st1 hR
      all_goals simp at h
    · -- evalArgsPositional
      intro st l vs st' h
      cases l with
      | nil =>
        simp only [evalArgsPositional] at h
        rw [ok_snd_eq h]; exact envFrame_refl _
      | cons a rest =>
        simp only [evalArgsPositional] at h
        rcases hE : evalNode dag f st a.value with e | ⟨w, st1⟩ <;>
          simp only [hE] at h
        · exact absurd h (by simp)
        rcases hR : evalArgsPositional dag f st1 rest with e | ⟨ws, st2⟩ <;>
          simp only [hR] at h
        · exact absurd h (by simp)
        · rw [ok_snd_eq h]
          exact envFrame_trans (ihN st a.value w st1 hE)
            (ihP st1 rest ws st2 hR)
    · -- resolvePass1
      intro st params slots pi l sp r st' h
      cases l with
      | nil =>
        simp only [resolvePass1] at h
        rw [ok_snd_eq h]; exact envFrame_refl _
      | cons a rest =>
        simp only [resolvePass1] at h
        cases ha : a.name with
        | some nameSp =>
          simp only [ha] at h
          rcases hI : params.findIdx? (fun p => p.name == nameSp.node)
              with _ | i <;> simp only [hI] at h
          · exact absurd h (by simp)
          rcases hE : evalNode dag f st a.value with e | ⟨w, st1⟩ <;>
            simp only [hE] at h
          · exact absurd h (by simp)
          · exact envFrame_trans (ihN st a.value w st1 hE)
              (ih1 st1 params (slots.set i (some w)) pi rest sp r st' h)
        | none =>
          simp only [ha] at h
          by_cases hp : params.length ≤ pi
          · rw [if_pos hp] at h
            exact absurd h (by simp)
          · rw [if_neg hp] at h
            rcases hE : evalNode dag f st a.value with e | ⟨w, st1⟩ <;>
              simp only [hE] at h
            · exact absurd h (by simp)
            · exact envFrame_trans (ihN st a.value w st1 hE)
                (ih1 st1 params (slots.set pi (some w)) (pi + 1) rest sp r st' h)
    · -- resolvePass2
      intro st pl sp r st' h
      cases pl with
      | nil =>
        simp only [resolvePass2] at h
        rw [ok_snd_eq h]; exact envFrame_refl _
      | cons a rest =>
        obtain ⟨param, slot⟩ := a
        simp only [resolvePass2] at h
        cases slot with
        | some w =>
          simp only [] at h
          rcases hR : resolvePass2 dag f st rest sp with e | ⟨ws, st1⟩ <;>
            simp only [hR] at h
          · exact absurd h (by simp)
          · rw [ok_snd_eq h]
            exact ih2 st rest sp ws st1 hR
        | none =>
          simp only [] at h
          cases hd : param.default with
          | some d =>
            simp only [hd] at h
            rcases hE : evalNode dag f st d with e | ⟨w, st1⟩ <;>
              simp only [hE] at h
            · exact absurd h (by simp)
            rcases hR : resolvePass2 dag f st1 rest sp with e | ⟨ws, st2⟩ <;>
              simp only [hR] at h
            · exact absurd h (by simp)
            · rw [ok_snd_eq h]
              exact envFrame_trans (ihN st d w st1 hE) (ih2 st1 rest sp ws st2 hR)
          | none =>
            simp only [hd] at h
            exact absurd h (by simp)
    · -- resolveArgs
      intro st params l sp r st' h
      simp only [resolveArgs] at h
      rcases h1 : resolvePass1 dag f st params (List.replicate params.length none)
          0 l sp with e | ⟨slots, st1⟩ <;> simp only [h1] at h
      · exact absurd h (by simp)
      · exact envFrame_trans
          (ih1 st params (List.replicate params.length none) 0 l sp slots st1 h1)
          (ih2 st1 (params.zip slots) sp r st' h)

theorem ok_fst_eq {α : Type} {x v : α} {s t : St}
    (h : (Except.ok (x, s) : EvalResult (α × St)) = .ok (v, t)) : v = x :=
  (congrArg Prod.fst (Except.ok.inj h)).symm


/-- C6: a block pushes a scope, runs its statements, yields the tail
value (or Unit without a tail), and pops the scope, restoring the
environment exactly — so inner bindings and shadowing never leak; in
particular `let x=1; { let x=2 }; x` evaluates to `Int(1)`. -/
theorem c6_block_scoping :
    (∀ (dag : Dag) (f : Nat) (st : St) (id : NodeId) (stmts : List NodeId)
       (tailN : Option NodeId) (v : Value) (st' : St),
      dag.node id = .block stmts tailN →
      evalNode dag f st id = .ok (v, st') →
      st'.env = st.env) ∧
    (∀ (dag : Dag) (f : Nat) (st : St) (id : NodeId) (stmts : List NodeId)
       (v : Value) (st' : St),
      dag.node id = .block stmts none →
      evalNode dag f st id = .ok (v, st') → v = .unit) ∧
    eval dagC6 30 = .ok (.int 1) := by
  refine ⟨?_, ?_, rfl⟩
  · intro dag f st id stmts tailN v st' hn h
    cases f with
    | zero => simp [evalNode] at h
    | succ f =>
      simp only [evalNode, hn] at h
      rcases hS : evalSeq dag f { st with env := envPush st.env } stmts
          with e | st1 <;> simp only [hS] at h
      · exact absurd h (by simp)
      have hfr := (frame_all dag f).2.2.1
      cases tailN with
      | none =>
        simp only [] at h
        rw [ok_snd_eq h]
        exact pop_of_frame_push (hfr _ stmts st1 hS)
      | some t =>
        rcases hT : evalNode dag f st1 t with e | ⟨vt, st2⟩ <;>
          simp only [hT] at h
        · exact absurd h (by simp)
        · rw [ok_snd_eq h]
          exact pop_of_frame_push (envFrame_trans (hfr _ stmts st1 hS)
            ((frame_all dag f).1 st1 t vt st2 hT))
  · intro dag f st id stmts v st' hn h
    cases f with
    | zero => simp [evalNode] at h
    | succ f =>
      simp only [evalNode, hn] at h
      rcases hS : evalSeq dag f { st with env := envPush st.env } stmts
          with e | st1 <;> simp only [hS] at h
      · exact absurd h (by simp)
      · exact ok_fst_eq h

/-- Witness for C6: running the block `{ let x = 2 }` from the initial
state restores the environment (in fact the whole state) exactly. -/
theorem c6_witness :
    evalNode dagB 10 initialSt 2 = .ok (.unit, initialSt) ∧
    initialSt.env = initialSt.env :=
  ⟨rfl, c6_block_scoping.1 dagB 10 initialSt 2 [1] none .unit initialSt rfl rfl⟩


/-- C7: the top-level `eval` evaluates the roots in order and returns
the last root's value; an empty DAG yields Unit; and evaluation is
fail-fast — the first error is returned no matter what roots remain. -/
theorem c7_root_evaluation :
    (∀ (dag : Dag) (f : Nat), dag.roots = [] → eval dag f = .ok .unit) ∧
    (∀ (dag : Dag) (f : Nat) (st : St) (r : NodeId) (rest : List NodeId)
       (last : Value) (e : EvalError),
      evalNode dag f st r = .error e →
      evalRoots dag f st (r :: rest) last = .error e) ∧
    (∀ (dag : Dag) (f : Nat) (st st1 : St) (rs : List NodeId) (r : NodeId)
       (last w : Value),
      evalRoots dag f st rs last = .ok (w, st1) →
      evalRoots dag f st (rs ++ [r]) last = evalNode dag f st1 r) := by
  refine ⟨?_, ?_, ?_⟩
  · intro dag f h
    simp [eval, h, evalRoots]
  · intro dag f st r rest last e h
    simp [evalRoots, h]
  · intro dag f st st1 rs r last w
    induction rs generalizing st last with
    | nil =>
      intro h
      simp only [evalRoots] at h
      rw [← ok_snd_eq h]
      rcases hE : evalNode dag f st1 r with e | ⟨vv, st2⟩ <;>
        simp [evalRoots, hE, ← ok_snd_eq h]
    | cons a as ih =>
      intro h
      simp only [evalRoots, List.cons_append] at h ⊢
      rcases hE : evalNode dag f st a with e | ⟨vv, stA⟩ <;> simp only [hE] at h ⊢
      · exact absurd h (by simp)
      · exact ih stA vv h

/-- Witness for C7: an empty DAG yields Unit, and roots starting with
an undefined name fail with that error regardless of later roots. -/
theorem c7_witness :
    eval (⟨[], []⟩ : Dag) 5 = .ok .unit ∧
    evalRoots dagE 5 initialSt [0, 1] .unit =
      .error (EvalError.new .undefinedName
        "undefined name \x27nosuch\x27" (some ⟨0, 0⟩)) :=
  ⟨c7_root_evaluation.1 ⟨[], []⟩ 5 rfl,
   c7_root_evaluation.2.1 dagE 5 initialSt 0 [1] .unit _ rfl⟩


/-- C3: two-pass argument resolution.  Pass 1: a named argument whose
name matches no parameter is an ArityMismatch; a positional argument
beyond the parameter count is an ArityMismatch (checked before its
value is evaluated).  Pass 2: a still-empty slot without a default is
an ArityMismatch ("missing argument").  Concretely, calling a
1-parameter no-default function with 2 positional arguments is an
ArityMismatch, and omitting a defaulted parameter succeeds using the
default's evaluated value. -/
theorem c3_resolve_args :
    (∀ (dag : Dag) (f : Nat) (st : St) (params : List FnParam)
       (slots : List (Option Value)) (posIdx : Nat) (nm : String) (nsp : Span)
       (vnode : NodeId) (asp : Span) (rest : List IrArg) (sp : Span),
      params.findIdx? (fun p => p.name == nm) = none →
      resolvePass1 dag (f + 1) st params slots posIdx
          (⟨some ⟨nm, nsp⟩, vnode, asp⟩ :: rest) sp =
        .error (EvalError.new .arityMismatch
          s!"unknown parameter \x27{nm}\x27" (some nsp))) ∧
    (∀ (dag : Dag) (f : Nat) (st : St) (params : List FnParam)
       (slots : List (Option Value)) (posIdx : Nat) (vnode : NodeId)
       (asp : Span) (rest : List IrArg) (sp : Span) (n g : Nat),
      params.length ≤ posIdx → n = params.length → g = posIdx + 1 →
      resolvePass1 dag (f + 1) st params slots posIdx
          (⟨none, vnode, asp⟩ :: rest) sp =
        .error (EvalError.new .arityMismatch
          s!"too many arguments: expected {n}, got at least {g}" (some sp))) ∧
    (∀ (dag : Dag) (f : Nat) (st : St) (pname : String)
       (rest : List (FnParam × Option Value)) (sp : Span),
      resolvePass2 dag (f + 1) st ((⟨pname, none⟩, none) :: rest) sp =
        .error (EvalError.new .arityMismatch
          s!"missing argument \x27{pname}\x27" (some sp))) ∧
    eval dagC3A 30 = .error (EvalError.new .arityMismatch
      "too many arguments: expected 1, got at least 2" (some ⟨0, 0⟩)) ∧
    eval dagC3B 30 = .ok (.int 6) := by
  refine ⟨?_, ?_, ?_, rfl, rfl⟩
  · intro dag f st params slots posIdx nm nsp vnode asp rest sp h
    simp [resolvePass1, h]
  · intro dag f st params slots posIdx vnode asp rest sp n g hle hn hg
    subst hn
    subst hg
    simp only [resolvePass1]
    rw [if_pos hle]
  · intro dag f st pname rest sp
    simp [resolvePass2]

/-- Witness for C3: a second positional argument against a single
parameter is rejected with the exact ArityMismatch error. -/
theorem c3_witness :
    resolvePass1 (⟨[], []⟩ : Dag) 3 initialSt [⟨"x", none⟩] [none] 1
        [⟨none, 0, ⟨0, 0⟩⟩] ⟨0, 0⟩ =
      .error (EvalError.new .arityMismatch
        "too many arguments: expected 1, got at least 2" (some ⟨0, 0⟩)) :=
  c3_resolve_args.2.1 ⟨[], []⟩ 2 initialSt [⟨"x", none⟩] [none] 1 0 ⟨0, 0⟩ []
    ⟨0, 0⟩ 1 2 (by decide) rfl rfl

end Covariant
